import Mathlib

/-!
Verification of the MLS dashboard synchronization pipeline
(`sales/tasks.py`, `sales/models.py`).

The embedding below translates the sync tasks into pure Lean functions:

* Timestamps are modelled as `Int` values (the code only compares parsed
  datetimes with `<=` / `>`); an absent or falsy upstream timestamp is `none`.
* Django model rows become Lean structures.  The many mapped data columns
  that no claim consults (the roughly 30 member columns and roughly 250
  property columns copied verbatim from the upstream record into the
  `defaults` dictionary) are bundled into a single `payload : String`
  field; the natural-key columns and every column the sync or aggregation
  logic actually reads are modelled individually.
* A Django table becomes a `List` of rows kept in insertion order;
  `update_or_create` becomes an explicit lookup-then-update-or-append.
  Database uniqueness (unique `member_key_numeric`, the property
  `unique_together` 4-tuple, the `AgentStats` unique triple) appears as a
  count hypothesis where a theorem needs it.
* `SyncLog.completed_at` is modelled as a `Bool` flag recording whether the
  field was set: the claims only consult its presence, and
  `get_last_successful_sync`'s order by descending `completed_at` over
  sequential runs coincides with reverse insertion order of the log list.
* The WFRMLS client is an oracle: a function from page number and attempt
  number to either a rate-limit signal or a page of records.  `time.sleep`
  has no observable effect in the state model and is dropped.
* The unbounded `while True` pagination loops become fuel-indexed
  recursion; exhausted fuel is reported through the same error channel as
  an unhandled exception and is documented where relevant.
-/

/-- Status values of `SyncLog.SyncStatus` in `sales/models.py`. -/
inductive SyncStatus where
  | started
  | completed
  | failed
deriving DecidableEq, Repr

/-- Sync type values of `SyncLog.SyncType` in `sales/models.py`. -/
inductive SyncType where
  | members
  | properties
  | full
deriving DecidableEq, Repr

/-- One row of the `SyncLog` table (`sales/models.py`).  `completedAt` is a
flag recording whether `completed_at` was assigned. -/
structure SyncLog where
  syncType : SyncType
  status : SyncStatus
  recordsProcessed : Nat
  recordsCreated : Nat
  recordsUpdated : Nat
  errorMessage : Option String
  completedAt : Bool
  lastModificationTimestamp : Option Int
deriving DecidableEq, Repr

/-- The freshly created log row at the top of `sync_members` /
`sync_properties`: status `started`, zero counters, nothing else set
(`SyncLog.objects.create`). -/
def newSyncLog (t : SyncType) : SyncLog :=
  { syncType := t
    status := SyncStatus.started
    recordsProcessed := 0
    recordsCreated := 0
    recordsUpdated := 0
    errorMessage := none
    completedAt := false
    lastModificationTimestamp := none }

/-- `SyncLog.get_last_successful_sync` (`sales/models.py`): the most recent
completed run of the given type.  The log list is kept in chronological
order and runs are sequential, so ordering by `completed_at` descending and
taking the first row is the last matching element of the list. -/
def getLastSuccessfulSync (logs : List SyncLog) (t : SyncType) : Option SyncLog :=
  (logs.filter (fun l => l.syncType == t && l.status == SyncStatus.completed)).getLast?

/-- Result of one client page fetch: either the upstream rate-limit signal
(`RateLimitError`) or a response. -/
inductive FetchResult (α : Type) where
  | rateLimited
  | ok (resp : α)
deriving DecidableEq, Repr

/-- One member record as returned by the WFRMLS API
(`member_data : dict`).  `memberKeyNumeric` is the parsed
`MemberKeyNumeric` value (`none` when the field is absent or null; `some 0`
is falsy in the source's `if not member_key_numeric` check).
`modificationTimestamp` is the parsed `ModificationTimestamp` (`none` when
absent or falsy).  `payload` stands for the remaining mapped fields. -/
structure MemberRec where
  memberKeyNumeric : Option Int
  modificationTimestamp : Option Int
  payload : String
deriving DecidableEq, Repr

/-- One row of the `Member` table.  `member_key_numeric` is unique. -/
structure MemberRow where
  memberKeyNumeric : Int
  modificationTimestamp : Option Int
  payload : String
deriving DecidableEq, Repr

/-- `Member.objects.update_or_create(member_key_numeric=key, defaults=...)`
(`sales/tasks.py`, member reconciliation): if a row with the key exists its
mapped columns are overwritten, otherwise a new row is appended; the
returned flag is Django's `created`. -/
def memberUpdateOrCreate (store : List MemberRow) (key : Int)
    (modTs : Option Int) (payload : String) : List MemberRow × Bool :=
  if store.any (fun row => row.memberKeyNumeric == key) then
    (store.map (fun row =>
      if row.memberKeyNumeric == key then
        { row with modificationTimestamp := modTs, payload := payload }
      else row), false)
  else
    (store ++ [{ memberKeyNumeric := key
                 modificationTimestamp := modTs
                 payload := payload }], true)

/-- Mutable state of one member sync run: the `Member` table plus the local
counters and the in-memory `sync_log.last_modification_timestamp`. -/
structure MemberSyncState where
  store : List MemberRow
  processed : Nat
  created : Nat
  updated : Nat
  watermark : Option Int
deriving DecidableEq, Repr

/-- The watermark update of `sales/tasks.py` (both sync loops): when the
record carries a timestamp, keep the maximum of it and the value seen so
far; otherwise leave the tracked value alone. -/
def updateWatermark (w : Option Int) (ts : Option Int) : Option Int :=
  match ts with
  | none => w
  | some t =>
    match w with
    | none => some t
    | some m => if t > m then some t else some m

/-- The reconciliation tail of the member loop body: the
`MemberKeyNumeric` falsy check followed by `update_or_create` and the
created/updated counter bump. -/
def reconcileMember (st : MemberSyncState) (rec : MemberRec) : MemberSyncState :=
  match rec.memberKeyNumeric with
  | none => st
  | some k =>
    if k == 0 then st
    else
      match memberUpdateOrCreate st.store k rec.modificationTimestamp rec.payload with
      | (store, true) => { st with store := store, created := st.created + 1 }
      | (store, false) => { st with store := store, updated := st.updated + 1 }

/-- The body of `for member_data in members_data` in `sync_members`
(`sales/tasks.py`): count the record, track the watermark when a timestamp
is present, skip reconciliation when running incrementally and the record
is not newer than the incremental floor `lastTs`, otherwise reconcile. -/
def processMemberRecord (lastTs : Option Int) (st : MemberSyncState)
    (rec : MemberRec) : MemberSyncState :=
  let st1 := { st with processed := st.processed + 1 }
  match rec.modificationTimestamp with
  | some t =>
    let st2 := { st1 with watermark := updateWatermark st1.watermark (some t) }
    match lastTs with
    | some floor => if t ≤ floor then st2 else reconcileMember st2 rec
    | none => reconcileMember st2 rec
  | none => reconcileMember st1 rec

/-- One member API response: the `value` list and the pagination link.
`next = none` models an absent or empty `@odata.nextLink`; `some q` models
a present link, with `q` recording whether it contains a query string
(the source only follows links containing `?`). -/
structure MemberResponse where
  value : List MemberRec
  next : Option Bool
deriving DecidableEq, Repr

/-- The member client as an oracle.  `firstPage a` is the result of the
`get_active_members` call at attempt `a` (the source performs only attempt
`0`, with no rate-limit handler).  `nextPage i a` is the result of fetching
the `i`-th continuation endpoint at attempt `a` (the source retries once
after a rate limit, so only attempts `0` and `1` are consulted). -/
structure MemberClient where
  firstPage : Nat → FetchResult MemberResponse
  nextPage : Nat → Nat → FetchResult MemberResponse

/-- The `while True` pagination loop of `sync_members`, fuel-indexed.
Returns the final state together with `none` on normal termination or the
propagated error text: a second `RateLimitError` on the same continuation
fetch propagates, and exhausted fuel is reported through the same channel
(the source would keep looping). -/
def memberSyncLoop (client : MemberClient) (lastTs : Option Int) :
    Nat → Nat → MemberResponse → MemberSyncState → MemberSyncState × Option String
  | 0, _, resp, st =>
    let st1 := resp.value.foldl (processMemberRecord lastTs) st
    match resp.next with
    | none => (st1, none)
    | some false => (st1, none)
    | some true => (st1, some "RecursionFuelExhausted")
  | fuel + 1, pageIdx, resp, st =>
    let st1 := resp.value.foldl (processMemberRecord lastTs) st
    match resp.next with
    | none => (st1, none)
    | some false => (st1, none)
    | some true =>
      match client.nextPage pageIdx 0 with
      | FetchResult.ok r => memberSyncLoop client lastTs fuel (pageIdx + 1) r st1
      | FetchResult.rateLimited =>
        match client.nextPage pageIdx 1 with
        | FetchResult.ok r => memberSyncLoop client lastTs fuel (pageIdx + 1) r st1
        | FetchResult.rateLimited => (st1, some "RateLimitError")

/-- Environment of one `sync_members` invocation: whether
`settings.WFRMLS_BEARER_TOKEN` is set, the `full_sync` argument, the
existing `SyncLog` table (chronological), the existing `Member` table, the
client oracle and the pagination fuel. -/
structure MemberEnv where
  tokenPresent : Bool
  fullSync : Bool
  logs : List SyncLog
  store : List MemberRow
  client : MemberClient
  fuel : Nat

/-- Result of one `sync_members` invocation: the finalized log row, the
log table after the run, the `Member` table after the run, and the
re-raised exception text when the run failed. -/
structure MemberSyncResult where
  log : SyncLog
  logsAfter : List SyncLog
  store : List MemberRow
  raised : Option String

/-- The error text of `get_mls_client`'s `ValueError`. -/
def tokenErrorMessage : String := "WFRMLS_BEARER_TOKEN not configured in settings"

/-- Shallow embedding of `sync_members` (`sales/tasks.py`).  The log row is
created first (status `started`).  A missing bearer token raises inside the
`try`, so the handler finalizes the row as `failed` and re-raises before
any fetch.  Otherwise the incremental floor is read from the last completed
members run (unless `full_sync`), the first page is fetched with no
rate-limit handler, the pagination loop runs, and the row is finalized:
`completed` with the accumulated counters on success, or `failed` with the
error text — and with the counters never copied — on an unhandled error.
The in-memory watermark field is saved on both paths. -/
def syncMembers (env : MemberEnv) : MemberSyncResult :=
  let log0 := newSyncLog SyncType.members
  if env.tokenPresent then
    let lastTs : Option Int :=
      if env.fullSync then none
      else
        match getLastSuccessfulSync env.logs SyncType.members with
        | some l => l.lastModificationTimestamp
        | none => none
    match env.client.firstPage 0 with
    | FetchResult.rateLimited =>
      let log := { log0 with
                   status := SyncStatus.failed
                   errorMessage := some "RateLimitError"
                   completedAt := true }
      { log := log
        logsAfter := env.logs ++ [log]
        store := env.store
        raised := some "RateLimitError" }
    | FetchResult.ok resp =>
      let st0 : MemberSyncState :=
        { store := env.store
          processed := 0
          created := 0
          updated := 0
          watermark := none }
      match memberSyncLoop env.client lastTs env.fuel 0 resp st0 with
      | (st, some e) =>
        let log := { log0 with
                     status := SyncStatus.failed
                     errorMessage := some e
                     completedAt := true
                     lastModificationTimestamp := st.watermark }
        { log := log
          logsAfter := env.logs ++ [log]
          store := st.store
          raised := some e }
      | (st, none) =>
        let log := { log0 with
                     status := SyncStatus.completed
                     recordsProcessed := st.processed
                     recordsCreated := st.created
                     recordsUpdated := st.updated
                     completedAt := true
                     lastModificationTimestamp := st.watermark }
        { log := log
          logsAfter := env.logs ++ [log]
          store := st.store
          raised := none }
  else
    let log := { log0 with
                 status := SyncStatus.failed
                 errorMessage := some tokenErrorMessage
                 completedAt := true }
    { log := log
      logsAfter := env.logs ++ [log]
      store := env.store
      raised := some tokenErrorMessage }

/-- One property record as returned by the WFRMLS API
(`property_data : dict`).  The four natural-key fields, the columns the
aggregation engine reads (`ClosePrice`, `CloseDate`'s year component — the
only part any query consults — `PropertyType`, the two agent AOR codes) and
the parsed `ModificationTimestamp` are modelled individually; `payload`
stands for the remaining mapped fields. -/
structure PropertyRec where
  listingKeyNumeric : Option Int
  buyerAgentKeyNumeric : Option Int
  listAgentKeyNumeric : Option Int
  standardStatus : Option String
  closePrice : Option Rat
  closeDateYear : Option Int
  propertyType : Option String
  listAgentAor : Option String
  buyerAgentAor : Option String
  modificationTimestamp : Option Int
  payload : String
deriving DecidableEq, Repr

/-- One row of the `Property` table.  The `unique_together` constraint in
`sales/models.py` covers the first four fields. -/
structure PropertyRow where
  listingKeyNumeric : Option Int
  buyerAgentKeyNumeric : Option Int
  listAgentKeyNumeric : Option Int
  standardStatus : Option String
  closePrice : Option Rat
  closeDateYear : Option Int
  propertyType : Option String
  listAgentAor : Option String
  buyerAgentAor : Option String
  modificationTimestamp : Option Int
  payload : String
deriving DecidableEq, Repr

/-- Whether a stored property row matches the natural key of an incoming
record: the `update_or_create` lookup on the 4-tuple
(`listing_key_numeric`, `buyer_agent_key_numeric`,
`list_agent_key_numeric`, `standard_status`). -/
def propKeyMatches (row : PropertyRow) (rec : PropertyRec) : Bool :=
  row.listingKeyNumeric == rec.listingKeyNumeric &&
  row.buyerAgentKeyNumeric == rec.buyerAgentKeyNumeric &&
  row.listAgentKeyNumeric == rec.listAgentKeyNumeric &&
  row.standardStatus == rec.standardStatus

/-- The row built or overwritten by `process_single_property`'s `defaults`
mapping for a given record. -/
def propertyRowOfRec (rec : PropertyRec) : PropertyRow :=
  { listingKeyNumeric := rec.listingKeyNumeric
    buyerAgentKeyNumeric := rec.buyerAgentKeyNumeric
    listAgentKeyNumeric := rec.listAgentKeyNumeric
    standardStatus := rec.standardStatus
    closePrice := rec.closePrice
    closeDateYear := rec.closeDateYear
    propertyType := rec.propertyType
    listAgentAor := rec.listAgentAor
    buyerAgentAor := rec.buyerAgentAor
    modificationTimestamp := rec.modificationTimestamp
    payload := rec.payload }

/-- `process_single_property` (`sales/tasks.py`):
`Property.objects.update_or_create` keyed on the 4-tuple; an existing row's
mapped columns are overwritten, otherwise a new row is appended; the flag
is Django's `created`. -/
def processSingleProperty (store : List PropertyRow) (rec : PropertyRec) :
    List PropertyRow × Bool :=
  if store.any (fun row => propKeyMatches row rec) then
    (store.map (fun row =>
      if propKeyMatches row rec then propertyRowOfRec rec else row), false)
  else
    (store ++ [propertyRowOfRec rec], true)

/-- Mutable state of one property sync run. -/
structure PropSyncState where
  store : List PropertyRow
  processed : Nat
  created : Nat
  updated : Nat
  watermark : Option Int
deriving DecidableEq, Repr

/-- The body of `for property_data in properties_data` in `sync_properties`
(`sales/tasks.py`): count the record, track the watermark when a timestamp
is present, and reconcile unconditionally — the property loop contains no
incremental skip and no key check. -/
def processPropertyRecord (st : PropSyncState) (rec : PropertyRec) : PropSyncState :=
  let st1 := { st with processed := st.processed + 1 }
  let st2 := { st1 with watermark := updateWatermark st1.watermark rec.modificationTimestamp }
  match processSingleProperty st2.store rec with
  | (store, true) => { st2 with store := store, created := st2.created + 1 }
  | (store, false) => { st2 with store := store, updated := st2.updated + 1 }

/-- The property client as an oracle: `pageFetch p a` is the result of the
`get_properties` call for page number `p` (starting at 1) at attempt `a`
(the source retries once after a rate limit). -/
structure PropClient where
  pageFetch : Nat → Nat → FetchResult (List PropertyRec)

/-- One page fetch of `sync_properties` with its rate-limit handler: a
rate limit on the first attempt causes a 30-second wait and exactly one
retry; the retry's outcome — success or a second `RateLimitError` — is the
overall outcome. -/
def propertyFetchPage (client : PropClient) (p : Nat) : FetchResult (List PropertyRec) :=
  match client.pageFetch p 0 with
  | FetchResult.ok data => FetchResult.ok data
  | FetchResult.rateLimited => client.pageFetch p 1

/-- The `while True` pagination loop of `sync_properties`, fuel-indexed:
fetch the page (with the rate-limit retry), stop on an empty page, process
the records, stop when fewer than 200 records were returned, otherwise
continue with the next page number. -/
def propertySyncLoop (client : PropClient) :
    Nat → Nat → PropSyncState → PropSyncState × Option String
  | 0, _, st => (st, some "RecursionFuelExhausted")
  | fuel + 1, pageNum, st =>
    match propertyFetchPage client pageNum with
    | FetchResult.rateLimited => (st, some "RateLimitError")
    | FetchResult.ok data =>
      if data.isEmpty then (st, none)
      else
        let st1 := data.foldl processPropertyRecord st
        if data.length < 200 then (st1, none)
        else propertySyncLoop client fuel (pageNum + 1) st1

/-- Environment of one `sync_properties` invocation.  `fullSync` is the
`full_sync` argument: the source accepts it (and its docstring promises an
incremental mode) but the function body never reads it and never consults
the watermark store. -/
structure PropEnv where
  tokenPresent : Bool
  fullSync : Bool
  year : Int
  logs : List SyncLog
  store : List PropertyRow
  client : PropClient
  fuel : Nat

/-- Result of one `sync_properties` invocation. -/
structure PropSyncResult where
  log : SyncLog
  logsAfter : List SyncLog
  store : List PropertyRow
  raised : Option String

/-- Shallow embedding of `sync_properties` (`sales/tasks.py`).  The log row
is created first; a missing bearer token fails the run before any fetch;
otherwise the pagination loop runs from page 1 — with no incremental
filtering of any kind — and the row is finalized exactly as in
`sync_members`. -/
def syncProperties (env : PropEnv) : PropSyncResult :=
  let log0 := newSyncLog SyncType.properties
  if env.tokenPresent then
    let st0 : PropSyncState :=
      { store := env.store
        processed := 0
        created := 0
        updated := 0
        watermark := none }
    match propertySyncLoop env.client env.fuel 1 st0 with
    | (st, some e) =>
      let log := { log0 with
                   status := SyncStatus.failed
                   errorMessage := some e
                   completedAt := true
                   lastModificationTimestamp := st.watermark }
      { log := log
        logsAfter := env.logs ++ [log]
        store := st.store
        raised := some e }
    | (st, none) =>
      let log := { log0 with
                   status := SyncStatus.completed
                   recordsProcessed := st.processed
                   recordsCreated := st.created
                   recordsUpdated := st.updated
                   completedAt := true
                   lastModificationTimestamp := st.watermark }
      { log := log
        logsAfter := env.logs ++ [log]
        store := st.store
        raised := none }
  else
    let log := { log0 with
                 status := SyncStatus.failed
                 errorMessage := some tokenErrorMessage
                 completedAt := true }
    { log := log
      logsAfter := env.logs ++ [log]
      store := env.store
      raised := some tokenErrorMessage }

/-- One row of the `AgentStats` table (`sales/models.py`): unique on
(`member`, `year`, `aor`); rank fields are null until the ranking pass
assigns them. -/
structure AgentStatsRow where
  memberKey : Int
  year : Int
  aor : Option String
  totalVolume : Rat
  listingVolume : Rat
  buyerVolume : Rat
  transactionCount : Nat
  listingCount : Nat
  buyerCount : Nat
  rankOverall : Option Nat
  rankInAor : Option Nat
  averagePrice : Option Rat
deriving DecidableEq, Repr

/-- One accumulator entry of the `agent_volumes` dictionary in
`calculate_agent_stats`. -/
structure Volumes where
  listingVolume : Rat
  buyerVolume : Rat
  listingCount : Nat
  buyerCount : Nat
deriving DecidableEq, Repr

/-- The freshly inserted `agent_volumes` entry (all zero). -/
def emptyVolumes : Volumes :=
  { listingVolume := 0, buyerVolume := 0, listingCount := 0, buyerCount := 0 }

/-- Python's `aor_value or "Unknown"` for the AOR code: `None` and the
empty string are falsy and map to the sentinel. -/
def aorOrUnknown : Option String → String
  | none => "Unknown"
  | some s => if s == "" then "Unknown" else s

/-- Python's `Decimal(str(p.close_price)) if p.close_price else
Decimal("0")`: an absent price is zero, and a zero price (falsy) is also
zero. -/
def closePriceValue : Option Rat → Rat
  | none => 0
  | some c => c

/-- The `agent_volumes` dictionary, a (member key, AOR) indexed map kept in
insertion order like a Python dict. -/
abbrev VolKey := Int × String

/-- The `if key not in agent_volumes: init` / `+=` idiom of
`calculate_agent_stats`: apply `f` to the entry at `key`, inserting a fresh
zero entry first when the key is new. -/
def bumpBucket (m : List (VolKey × Volumes)) (key : VolKey)
    (f : Volumes → Volumes) : List (VolKey × Volumes) :=
  if m.any (fun e => e.1 == key) then
    m.map (fun e => if e.1 == key then (e.1, f e.2) else e)
  else m ++ [(key, f emptyVolumes)]

/-- Listing-side accrual: `listing_volume += close_price` and
`listing_count += 1`. -/
def addListingSide (price : Rat) (v : Volumes) : Volumes :=
  { v with listingVolume := v.listingVolume + price
           listingCount := v.listingCount + 1 }

/-- Buyer-side accrual: `buyer_volume += close_price` and
`buyer_count += 1`. -/
def addBuyerSide (price : Rat) (v : Volumes) : Volumes :=
  { v with buyerVolume := v.buyerVolume + price
           buyerCount := v.buyerCount + 1 }

/-- The body of `for prop in closed_properties` in `calculate_agent_stats`:
attribute the close price to the listing agent's bucket when the listing
agent key is truthy, then to the buyer agent's bucket when the buyer agent
key is truthy; a missing AOR code is bucketed under "Unknown". -/
def accumulateProperty (m : List (VolKey × Volumes)) (p : PropertyRow) :
    List (VolKey × Volumes) :=
  let price := closePriceValue p.closePrice
  let m1 :=
    match p.listAgentKeyNumeric with
    | some k =>
      if k == 0 then m
      else bumpBucket m (k, aorOrUnknown p.listAgentAor) (addListingSide price)
    | none => m
  match p.buyerAgentKeyNumeric with
  | some k =>
    if k == 0 then m1
    else bumpBucket m1 (k, aorOrUnknown p.buyerAgentAor) (addBuyerSide price)
  | none => m1

/-- The `closed_properties` queryset of `calculate_agent_stats`:
`standard_status="Closed"`, `close_date__year=year`,
`property_type="Residential"`. -/
def qualifyingProperties (props : List PropertyRow) (year : Int) : List PropertyRow :=
  props.filter (fun p =>
    p.standardStatus == some "Closed" &&
    p.closeDateYear == some year &&
    p.propertyType == some "Residential")

/-- The fully accumulated `agent_volumes` dictionary for a year. -/
def agentVolumes (props : List PropertyRow) (year : Int) : List (VolKey × Volumes) :=
  (qualifyingProperties props year).foldl accumulateProperty []

/-- The `AgentStats.objects.update_or_create` lookup on the unique
(`member`, `year`, `aor`) triple. -/
def statsKeyMatches (row : AgentStatsRow) (key : Int) (year : Int) (aor : String) : Bool :=
  row.memberKey == key && row.year == year && row.aor == some aor

/-- `AgentStats.objects.update_or_create(member=..., year=..., aor=...,
defaults=...)` in `calculate_agent_stats`: volumes, counts and average are
overwritten or initialized; the rank fields are not part of the defaults,
so an existing row keeps its old ranks and a fresh row starts with null
ranks. -/
def agentStatsUpdateOrCreate (stats : List AgentStatsRow) (key : Int)
    (year : Int) (aor : String) (v : Volumes) : List AgentStatsRow :=
  let total := v.listingVolume + v.buyerVolume
  let cnt := v.listingCount + v.buyerCount
  let avg : Option Rat := if cnt > 0 then some (total / (cnt : Rat)) else none
  if stats.any (fun r => statsKeyMatches r key year aor) then
    stats.map (fun r =>
      if statsKeyMatches r key year aor then
        { r with totalVolume := total
                 listingVolume := v.listingVolume
                 buyerVolume := v.buyerVolume
                 transactionCount := cnt
                 listingCount := v.listingCount
                 buyerCount := v.buyerCount
                 averagePrice := avg }
      else r)
  else
    stats ++ [{ memberKey := key
                year := year
                aor := some aor
                totalVolume := total
                listingVolume := v.listingVolume
                buyerVolume := v.buyerVolume
                transactionCount := cnt
                listingCount := v.listingCount
                buyerCount := v.buyerCount
                rankOverall := none
                rankInAor := none
                averagePrice := avg }]

/-- The `for (member_key, aor), volumes in agent_volumes.items()` loop:
buckets whose member key has no `Member` row are skipped
(`Member.DoesNotExist`), every other bucket is upserted and counted in
`stats_updated`. -/
def upsertStatsStep (members : List MemberRow) (year : Int)
    (acc : List AgentStatsRow × Nat) (e : VolKey × Volumes) :
    List AgentStatsRow × Nat :=
  if members.any (fun m => m.memberKeyNumeric == e.1.1) then
    (agentStatsUpdateOrCreate acc.1 e.1.1 year e.1.2 e.2, acc.2 + 1)
  else acc

def upsertAgentStats (members : List MemberRow) (stats : List AgentStatsRow)
    (year : Int) (buckets : List (VolKey × Volumes)) : List AgentStatsRow × Nat :=
  buckets.foldl (upsertStatsStep members year) (stats, 0)

/-- Stable insertion step of the descending-volume sort standing for
`order_by("-total_volume")`: rows of equal volume keep their relative
order, making the tie-break deterministic within one run. -/
def insertByVolume (x : AgentStatsRow) : List AgentStatsRow → List AgentStatsRow
  | [] => [x]
  | y :: ys => if y.totalVolume < x.totalVolume then x :: y :: ys else y :: insertByVolume x ys

/-- The `order_by("-total_volume")` queryset order: a stable descending
sort on `total_volume`. -/
def sortByVolumeDesc (l : List AgentStatsRow) : List AgentStatsRow :=
  l.foldr insertByVolume []

/-- `for rank, stat in enumerate(qs, n)` followed by a per-row save of one
rank field: assign `n`, `n + 1`, ... to the rows in queryset order via the
field writer `upd`. -/
def assignRanksFrom (upd : AgentStatsRow → Nat → AgentStatsRow) :
    Nat → List AgentStatsRow → List AgentStatsRow
  | _, [] => []
  | n, x :: xs => upd x n :: assignRanksFrom upd (n + 1) xs

/-- The `rank_overall` field writer. -/
def setRankOverall (r : AgentStatsRow) (k : Nat) : AgentStatsRow :=
  { r with rankOverall := some k }

/-- The `rank_in_aor` field writer. -/
def setRankInAor (r : AgentStatsRow) (k : Nat) : AgentStatsRow :=
  { r with rankInAor := some k }

/-- The overall ranking pass: `enumerate(all_stats, 1)` over the
descending-volume order, writing `rank_overall`. -/
def setOverallRanks (l : List AgentStatsRow) : List AgentStatsRow :=
  assignRanksFrom setRankOverall 1 (sortByVolumeDesc l)

/-- The per-association ranking of one AOR group: `enumerate(aor_stats, 1)`
over the group's descending-volume order, writing `rank_in_aor`. -/
def setAorRanks (group : List AgentStatsRow) : List AgentStatsRow :=
  assignRanksFrom setRankInAor 1 (sortByVolumeDesc group)

/-- The two ranking passes of `calculate_agent_stats` over one year's
rows: write `rank_overall` across all rows, then for each distinct AOR
value re-query that association's rows and write `rank_in_aor`.  The
table is a multiset of rows; a per-AOR update is modelled by replacing the
association's rows with their re-ranked versions. -/
def aorRankStep (table : List AgentStatsRow) (a : Option String) :
    List AgentStatsRow :=
  table.filter (fun r => r.aor != a) ++
    setAorRanks (table.filter (fun r => r.aor == a))

def rankingPassYear (stats : List AgentStatsRow) : List AgentStatsRow :=
  let overall := setOverallRanks stats
  let aors := (overall.map (fun r => r.aor)).dedup
  aors.foldl aorRankStep overall

/-- Result of `calculate_agent_stats`: the `AgentStats` table after the run
and the returned `stats_updated` count. -/
structure StatsResult where
  stats : List AgentStatsRow
  updatedCount : Nat
deriving DecidableEq, Repr

/-- Shallow embedding of `calculate_agent_stats` (`sales/tasks.py`):
accumulate `agent_volumes` from the year's qualifying listings, upsert one
`AgentStats` row per bucket whose member exists, then run the two ranking
passes over every `AgentStats` row of that year.  Rows of other years are
untouched; rows of this year that no bucket upserted are re-ranked but
never deleted. -/
def calculateAgentStats (props : List PropertyRow) (members : List MemberRow)
    (stats : List AgentStatsRow) (year : Int) : StatsResult :=
  let buckets := agentVolumes props year
  let upserted := upsertAgentStats members stats year buckets
  { stats := upserted.1.filter (fun r => r.year != year) ++
      rankingPassYear (upserted.1.filter (fun r => r.year == year))
    updatedCount := upserted.2 }

/-- The store/created/updated projection of a member sync state: the data
a reconciliation writes, as opposed to the bookkeeping
(processed count, watermark) every record touches. -/
def scuMember (st : MemberSyncState) : List MemberRow × Nat × Nat :=
  (st.store, st.created, st.updated)

/-- The action of `reconcileMember` on the store/created/updated
projection alone. -/
def reconcileStep (acc : List MemberRow × Nat × Nat) (rec : MemberRec) :
    List MemberRow × Nat × Nat :=
  match rec.memberKeyNumeric with
  | none => acc
  | some k =>
    if k == 0 then acc
    else
      match memberUpdateOrCreate acc.1 k rec.modificationTimestamp rec.payload with
      | (store, true) => (store, acc.2.1 + 1, acc.2.2)
      | (store, false) => (store, acc.2.1, acc.2.2 + 1)

/-- Whether a fetched record's parseable modification timestamp is strictly
newer than the incremental floor `T` — the records the member loop
reconciles in incremental mode. -/
def newerThan (T : Int) (rec : MemberRec) : Bool :=
  match rec.modificationTimestamp with
  | some t => decide (T < t)
  | none => false

/-! ### Concrete scenarios used by the counterexamples and evaluations -/

/-- A member client returning a single one-record page (key 1,
modification timestamp 10). -/
def clientOnePageTs10 : MemberClient :=
  { firstPage := fun _ => FetchResult.ok
      { value := [{ memberKeyNumeric := some 1
                    modificationTimestamp := some 10
                    payload := "a" }]
        next := none }
    nextPage := fun _ _ => FetchResult.ok { value := [], next := none } }

/-- A member client returning a single one-record page (key 2,
modification timestamp 5): the record of `clientOnePageTs10` is no longer
returned, only an older one. -/
def clientOnePageTs5 : MemberClient :=
  { firstPage := fun _ => FetchResult.ok
      { value := [{ memberKeyNumeric := some 2
                    modificationTimestamp := some 5
                    payload := "b" }]
        next := none }
    nextPage := fun _ _ => FetchResult.ok { value := [], next := none } }

/-- First run of the C6 scenario: a full member sync over
`clientOnePageTs10`, starting from empty tables. -/
def c6Run1 : MemberSyncResult :=
  syncMembers
    { tokenPresent := true
      fullSync := true
      logs := []
      store := []
      client := clientOnePageTs10
      fuel := 1 }

/-- Second run of the C6 scenario: an incremental member sync over
`clientOnePageTs5`, starting from the state `c6Run1` left behind. -/
def c6Run2 : MemberSyncResult :=
  syncMembers
    { tokenPresent := true
      fullSync := false
      logs := c6Run1.logsAfter
      store := c6Run1.store
      client := clientOnePageTs5
      fuel := 1 }

/-- A member client whose initial page fetch is rate limited on attempt 0
but would succeed on attempt 1 — the C7 first-page scenario. -/
def clientFirstPageRateLimited : MemberClient :=
  { firstPage := fun a =>
      if a == 0 then FetchResult.rateLimited
      else FetchResult.ok { value := [], next := none }
    nextPage := fun _ _ => FetchResult.ok { value := [], next := none } }

/-- A member client whose first page succeeds with one record and a
continuation link, and whose continuation fetch is rate limited on both
attempts — the C4 mid-run failure scenario. -/
def clientContinuationDoubleRateLimited : MemberClient :=
  { firstPage := fun _ => FetchResult.ok
      { value := [{ memberKeyNumeric := some 1
                    modificationTimestamp := some 10
                    payload := "a" }]
        next := some true }
    nextPage := fun _ _ => FetchResult.rateLimited }

/-- The C4 scenario: a member sync that reconciles one record and then
fails on the continuation page. -/
def c4Run : MemberSyncResult :=
  syncMembers
    { tokenPresent := true
      fullSync := true
      logs := []
      store := []
      client := clientContinuationDoubleRateLimited
      fuel := 1 }

/-- The stale property record of the C2 scenario: closed in 2024, but with
modification timestamp 50, older than the stored watermark 100. -/
def c2StaleRec : PropertyRec :=
  { listingKeyNumeric := some 11
    buyerAgentKeyNumeric := some 2
    listAgentKeyNumeric := some 3
    standardStatus := some "Closed"
    closePrice := none
    closeDateYear := some 2024
    propertyType := some "Residential"
    listAgentAor := none
    buyerAgentAor := none
    modificationTimestamp := some 50
    payload := "stale" }

/-- The previously completed properties run of the C2 scenario, carrying
watermark 100. -/
def c2PriorLog : SyncLog :=
  { syncType := SyncType.properties
    status := SyncStatus.completed
    recordsProcessed := 1
    recordsCreated := 1
    recordsUpdated := 0
    errorMessage := none
    completedAt := true
    lastModificationTimestamp := some 100 }

/-- The C2 scenario: an incremental property sync (`full_sync = false`)
after a completed run with watermark 100, fetching only the stale record. -/
def c2Run : PropSyncResult :=
  syncProperties
    { tokenPresent := true
      fullSync := false
      year := 2024
      logs := [c2PriorLog]
      store := []
      client := { pageFetch := fun p _ =>
        if p == 1 then FetchResult.ok [c2StaleRec] else FetchResult.ok [] }
      fuel := 2 }

/-- The pre-existing `AgentStats` row of the C9 scenario: agent 1 had
stats for 2024 from an earlier aggregation run. -/
def c9StaleRow : AgentStatsRow :=
  { memberKey := 1
    year := 2024
    aor := some "X"
    totalVolume := 3
    listingVolume := 3
    buyerVolume := 0
    transactionCount := 1
    listingCount := 1
    buyerCount := 0
    rankOverall := some 1
    rankInAor := some 1
    averagePrice := some 3 }

/-- The C9 scenario: recomputing 2024 stats when the stored listings no
longer contain any qualifying transaction for agent 1. -/
def c9Run : StatsResult :=
  calculateAgentStats [] [{ memberKeyNumeric := 1
                            modificationTimestamp := none
                            payload := "m" }] [c9StaleRow] 2024

/-- Closed residential 2024 listing sold by agent 1 (AOR "X") at 200. -/
def c8Prop1 : PropertyRow :=
  { listingKeyNumeric := some 11
    buyerAgentKeyNumeric := none
    listAgentKeyNumeric := some 1
    standardStatus := some "Closed"
    closePrice := some 200
    closeDateYear := some 2024
    propertyType := some "Residential"
    listAgentAor := some "X"
    buyerAgentAor := none
    modificationTimestamp := some 1
    payload := "p1" }

/-- Closed residential 2024 listing sold by agent 2 (AOR "X") at 100. -/
def c8Prop2 : PropertyRow :=
  { listingKeyNumeric := some 12
    buyerAgentKeyNumeric := none
    listAgentKeyNumeric := some 2
    standardStatus := some "Closed"
    closePrice := some 100
    closeDateYear := some 2024
    propertyType := some "Residential"
    listAgentAor := some "X"
    buyerAgentAor := none
    modificationTimestamp := some 2
    payload := "p2" }

/-- The C8 scenario: aggregating the two listings for two known members. -/
def c8Run : StatsResult :=
  calculateAgentStats [c8Prop1, c8Prop2]
    [{ memberKeyNumeric := 1, modificationTimestamp := none, payload := "m1" },
     { memberKeyNumeric := 2, modificationTimestamp := none, payload := "m2" }]
    [] 2024

/-- The 2024 rows of the C8 scenario's resulting table. -/
def c8YearRows : List AgentStatsRow :=
  c8Run.stats.filter (fun r => r.year == 2024)

/-- The expected top-ranked row of the C8 scenario (agent 1, volume 200). -/
def c8RowTop : AgentStatsRow :=
  { memberKey := 1
    year := 2024
    aor := some "X"
    totalVolume := 200
    listingVolume := 200
    buyerVolume := 0
    transactionCount := 1
    listingCount := 1
    buyerCount := 0
    rankOverall := some 1
    rankInAor := some 1
    averagePrice := some 200 }

/-- The expected second-ranked row of the C8 scenario (agent 2, volume
100). -/
def c8RowSecond : AgentStatsRow :=
  { memberKey := 2
    year := 2024
    aor := some "X"
    totalVolume := 100
    listingVolume := 100
    buyerVolume := 0
    transactionCount := 1
    listingCount := 1
    buyerCount := 0
    rankOverall := some 2
    rankInAor := some 2
    averagePrice := some 100 }

/-! ### Generic lemmas about the keyed-upsert pattern -/

theorem filter_length_map_update {α : Type} (l : List α) (p : α → Bool) (g : α → α)
    (hg : ∀ a, p a = true → p (g a) = true) :
    ((l.map (fun a => if p a then g a else a)).filter p).length = (l.filter p).length := by
  induction l with
  | nil => rfl
  | cons a l ih =>
    by_cases h : p a = true
    · simp only [List.map_cons, h, if_true, List.filter_cons, hg a h, List.length_cons, ih]
    · have h' : p a = false := by simpa using h
      simp only [List.map_cons, h', if_false, List.filter_cons, ih, Bool.false_eq_true]

theorem filter_nil_of_any_false {α : Type} (l : List α) (p : α → Bool)
    (h : l.any p = false) : l.filter p = [] := by
  refine List.filter_eq_nil_iff.mpr ?_
  intro a ha
  intro hpa
  have : l.any p = true := List.any_eq_true.mpr ⟨a, ha, hpa⟩
  rw [h] at this
  exact Bool.false_ne_true this

theorem one_le_filter_length_of_any {α : Type} (l : List α) (p : α → Bool)
    (h : l.any p = true) : 1 ≤ (l.filter p).length := by
  obtain ⟨x, hx, hpx⟩ := List.any_eq_true.mp h
  have hm : x ∈ l.filter p := List.mem_filter.mpr ⟨hx, hpx⟩
  exact List.length_pos.mpr (List.ne_nil_of_mem hm)

theorem any_of_one_le_filter_length {α : Type} (l : List α) (p : α → Bool)
    (h : 1 ≤ (l.filter p).length) : l.any p = true := by
  have hne : l.filter p ≠ [] := by
    intro hnil
    rw [hnil] at h
    simp at h
  obtain ⟨x, hx⟩ := List.exists_mem_of_ne_nil _ hne
  have := List.mem_filter.mp hx
  exact List.any_eq_true.mpr ⟨x, this.1, this.2⟩

/-! ### Upsert count lemmas for the two reconcilers -/

theorem memberUpdateOrCreate_count (store : List MemberRow) (key : Int)
    (modTs : Option Int) (payload : String)
    (h : (store.filter (fun r => r.memberKeyNumeric == key)).length ≤ 1) :
    ((memberUpdateOrCreate store key modTs payload).1.filter
        (fun r => r.memberKeyNumeric == key)).length = 1 := by
  unfold memberUpdateOrCreate
  by_cases hany : store.any (fun r => r.memberKeyNumeric == key) = true
  · simp only [hany, if_true]
    rw [filter_length_map_update]
    · have h1 := one_le_filter_length_of_any store (fun r => r.memberKeyNumeric == key) hany
      omega
    · intro a ha
      simpa using ha
  · have hany' : store.any (fun r => r.memberKeyNumeric == key) = false := by
      simpa using hany
    simp [hany', List.filter_append, filter_nil_of_any_false _ _ hany']

theorem memberUpdateOrCreate_created_false (store : List MemberRow) (key : Int)
    (modTs : Option Int) (payload : String)
    (hany : store.any (fun r => r.memberKeyNumeric == key) = true) :
    (memberUpdateOrCreate store key modTs payload).2 = false := by
  unfold memberUpdateOrCreate
  simp [hany]

theorem propKeyMatches_rowOfRec (rec : PropertyRec) :
    propKeyMatches (propertyRowOfRec rec) rec = true := by
  simp [propKeyMatches, propertyRowOfRec]

theorem processSingleProperty_count (store : List PropertyRow) (rec : PropertyRec)
    (h : (store.filter (fun r => propKeyMatches r rec)).length ≤ 1) :
    ((processSingleProperty store rec).1.filter
        (fun r => propKeyMatches r rec)).length = 1 := by
  unfold processSingleProperty
  by_cases hany : store.any (fun r => propKeyMatches r rec) = true
  · rw [if_pos hany]
    dsimp only
    rw [filter_length_map_update]
    · have h1 := one_le_filter_length_of_any store (fun r => propKeyMatches r rec) hany
      omega
    · intro a _
      exact propKeyMatches_rowOfRec rec
  · rw [if_neg hany]
    dsimp only
    have hany' : store.any (fun r => propKeyMatches r rec) = false := by
      simpa using hany
    rw [List.filter_append, filter_nil_of_any_false _ _ hany']
    simp [propKeyMatches_rowOfRec]

theorem processSingleProperty_created_false (store : List PropertyRow)
    (rec : PropertyRec)
    (hany : store.any (fun r => propKeyMatches r rec) = true) :
    (processSingleProperty store rec).2 = false := by
  unfold processSingleProperty
  simp [hany]

/-- C1: reconciling the same unchanged external record twice — a member via
`update_or_create` keyed on `member_key_numeric`, a listing via
`process_single_property` keyed on the 4-tuple — leaves exactly one local
row for that record's natural key, and the second reconciliation reports
`was_created = false`.  The hypotheses are the database uniqueness
constraints: the initial stores hold at most one row per natural key. -/
theorem C1_reconcile_twice_idempotent
    (mstore : List MemberRow) (key : Int) (modTs : Option Int) (payload : String)
    (hm : (mstore.filter (fun r => r.memberKeyNumeric == key)).length ≤ 1)
    (pstore : List PropertyRow) (rec : PropertyRec)
    (hp : (pstore.filter (fun r => propKeyMatches r rec)).length ≤ 1) :
    ((memberUpdateOrCreate (memberUpdateOrCreate mstore key modTs payload).1
        key modTs payload).2 = false ∧
     ((memberUpdateOrCreate (memberUpdateOrCreate mstore key modTs payload).1
        key modTs payload).1.filter (fun r => r.memberKeyNumeric == key)).length = 1) ∧
    ((processSingleProperty (processSingleProperty pstore rec).1 rec).2 = false ∧
     ((processSingleProperty (processSingleProperty pstore rec).1 rec).1.filter
        (fun r => propKeyMatches r rec)).length = 1) := by
  have hc1 := memberUpdateOrCreate_count mstore key modTs payload hm
  have hany1 : ((memberUpdateOrCreate mstore key modTs payload).1.any
      (fun r => r.memberKeyNumeric == key)) = true :=
    any_of_one_le_filter_length _ _ (le_of_eq hc1.symm)
  have hpc1 := processSingleProperty_count pstore rec hp
  have hpany1 : ((processSingleProperty pstore rec).1.any
      (fun r => propKeyMatches r rec)) = true :=
    any_of_one_le_filter_length _ _ (le_of_eq hpc1.symm)
  refine ⟨⟨memberUpdateOrCreate_created_false _ _ _ _ hany1, ?_⟩,
          ⟨processSingleProperty_created_false _ _ hpany1, ?_⟩⟩
  · exact memberUpdateOrCreate_count _ _ _ _ (le_of_eq hc1)
  · exact processSingleProperty_count _ _ (le_of_eq hpc1)

/-- Witness for C1 at a concrete member record (key 7) and a concrete
listing record, both starting from empty stores. -/
theorem C1_reconcile_twice_idempotent_witness :
    (([] : List MemberRow).filter (fun r => r.memberKeyNumeric == 7)).length ≤ 1 ∧
    (((memberUpdateOrCreate (memberUpdateOrCreate [] 7 (some 5) "p").1
        7 (some 5) "p").2 = false ∧
      ((memberUpdateOrCreate (memberUpdateOrCreate [] 7 (some 5) "p").1
        7 (some 5) "p").1.filter (fun r => r.memberKeyNumeric == 7)).length = 1) ∧
     ((processSingleProperty (processSingleProperty []
        { listingKeyNumeric := some 1
          buyerAgentKeyNumeric := some 2
          listAgentKeyNumeric := some 3
          standardStatus := some "Closed"
          closePrice := none
          closeDateYear := some 2024
          propertyType := some "Residential"
          listAgentAor := none
          buyerAgentAor := none
          modificationTimestamp := some 9
          payload := "q" }).1
        { listingKeyNumeric := some 1
          buyerAgentKeyNumeric := some 2
          listAgentKeyNumeric := some 3
          standardStatus := some "Closed"
          closePrice := none
          closeDateYear := some 2024
          propertyType := some "Residential"
          listAgentAor := none
          buyerAgentAor := none
          modificationTimestamp := some 9
          payload := "q" }).2 = false ∧
      ((processSingleProperty (processSingleProperty []
        { listingKeyNumeric := some 1
          buyerAgentKeyNumeric := some 2
          listAgentKeyNumeric := some 3
          standardStatus := some "Closed"
          closePrice := none
          closeDateYear := some 2024
          propertyType := some "Residential"
          listAgentAor := none
          buyerAgentAor := none
          modificationTimestamp := some 9
          payload := "q" }).1
        { listingKeyNumeric := some 1
          buyerAgentKeyNumeric := some 2
          listAgentKeyNumeric := some 3
          standardStatus := some "Closed"
          closePrice := none
          closeDateYear := some 2024
          propertyType := some "Residential"
          listAgentAor := none
          buyerAgentAor := none
          modificationTimestamp := some 9
          payload := "q" }).1.filter
        (fun r => propKeyMatches r
          { listingKeyNumeric := some 1
            buyerAgentKeyNumeric := some 2
            listAgentKeyNumeric := some 3
            standardStatus := some "Closed"
            closePrice := none
            closeDateYear := some 2024
            propertyType := some "Residential"
            listAgentAor := none
            buyerAgentAor := none
            modificationTimestamp := some 9
            payload := "q" })).length = 1)) :=
  ⟨by decide, C1_reconcile_twice_idempotent [] 7 (some 5) "p" (by decide) [] _ (by decide)⟩

/-- C2 (code bug): `sync_properties` invoked in incremental mode
(`full_sync = false`) after a completed properties run with watermark 100
still reconciles a fetched record whose modification timestamp 50 is older
than that watermark: the run completes having created a row from the stale
record, because the function body never consults
`get_last_successful_sync` and never filters by the watermark, although
its own docstring promises "fetch only modified since last successful
sync". -/
theorem C2_incremental_mode_ignored :
    getLastSuccessfulSync [c2PriorLog] SyncType.properties = some c2PriorLog ∧
    c2PriorLog.lastModificationTimestamp = some 100 ∧
    c2StaleRec.modificationTimestamp = some 50 ∧
    ((50 : Int) ≤ 100) ∧
    c2Run.log.status = SyncStatus.completed ∧
    c2Run.log.recordsProcessed = 1 ∧
    c2Run.log.recordsCreated = 1 ∧
    c2Run.store = [propertyRowOfRec c2StaleRec] := by
  decide

/-- C3 counterexample: with the bearer token absent, `sync_members` does
create a `SyncLog` row for the invocation (the claim says none is
created): the log table grows by one row, finalized as failed with the
configuration error, before the error propagates. -/
theorem C3_synclog_created_counterexample :
    (syncMembers
      { tokenPresent := false
        fullSync := true
        logs := []
        store := []
        client := clientOnePageTs10
        fuel := 0 }).logsAfter.length = 1 ∧
    (syncMembers
      { tokenPresent := false
        fullSync := true
        logs := []
        store := []
        client := clientOnePageTs10
        fuel := 0 }).raised = some tokenErrorMessage ∧
    (syncMembers
      { tokenPresent := false
        fullSync := true
        logs := []
        store := []
        client := clientOnePageTs10
        fuel := 0 }).log.status = SyncStatus.failed := by
  decide

/-- C3 as amended: with the bearer token absent, both sync entry points
fail with the configuration error before any network activity (the result
does not depend on the client) and before any record is stored (the entity
tables are unchanged) — but a `SyncLog` row for the invocation is created
and finalized as failed with the error message. -/
theorem C3_config_error_amended (envM : MemberEnv) (envP : PropEnv)
    (c : MemberClient) (cp : PropClient)
    (hm : envM.tokenPresent = false) (hp : envP.tokenPresent = false) :
    ((syncMembers envM).raised = some tokenErrorMessage ∧
     (syncMembers envM).store = envM.store ∧
     (syncMembers envM).log.status = SyncStatus.failed ∧
     (syncMembers envM).log.errorMessage = some tokenErrorMessage ∧
     (syncMembers envM).log.completedAt = true ∧
     (syncMembers envM).logsAfter = envM.logs ++ [(syncMembers envM).log] ∧
     syncMembers { envM with client := c } = syncMembers envM) ∧
    ((syncProperties envP).raised = some tokenErrorMessage ∧
     (syncProperties envP).store = envP.store ∧
     (syncProperties envP).log.status = SyncStatus.failed ∧
     (syncProperties envP).log.errorMessage = some tokenErrorMessage ∧
     (syncProperties envP).log.completedAt = true ∧
     (syncProperties envP).logsAfter = envP.logs ++ [(syncProperties envP).log] ∧
     syncProperties { envP with client := cp } = syncProperties envP) := by
  constructor
  · simp [syncMembers, hm]
  · simp [syncProperties, hp]

/-- Witness for C3 as amended, at concrete token-absent environments. -/
theorem C3_config_error_amended_witness :
    (syncMembers
      { tokenPresent := false
        fullSync := false
        logs := []
        store := []
        client := clientOnePageTs10
        fuel := 0 }).raised = some tokenErrorMessage ∧
    (syncProperties
      { tokenPresent := false
        fullSync := false
        year := 2024
        logs := []
        store := []
        client := { pageFetch := fun _ _ => FetchResult.ok [] }
        fuel := 0 }).raised = some tokenErrorMessage :=
  ⟨(C3_config_error_amended
      { tokenPresent := false
        fullSync := false
        logs := []
        store := []
        client := clientOnePageTs10
        fuel := 0 }
      { tokenPresent := false
        fullSync := false
        year := 2024
        logs := []
        store := []
        client := { pageFetch := fun _ _ => FetchResult.ok [] }
        fuel := 0 }
      clientOnePageTs5 { pageFetch := fun _ _ => FetchResult.ok [] }
      rfl rfl).1.1,
   (C3_config_error_amended
      { tokenPresent := false
        fullSync := false
        logs := []
        store := []
        client := clientOnePageTs10
        fuel := 0 }
      { tokenPresent := false
        fullSync := false
        year := 2024
        logs := []
        store := []
        client := { pageFetch := fun _ _ => FetchResult.ok [] }
        fuel := 0 }
      clientOnePageTs5 { pageFetch := fun _ _ => FetchResult.ok [] }
      rfl rfl).2.1⟩

/-- C4 counterexample: a member run that reconciles one record (the store
gains the row) and then fails on the continuation page ends with
`records_processed = 0` on its `SyncLog` — the counters accumulated before
the failure are not persisted, contradicting the claim that partial
counter progress is visible. -/
theorem C4_counters_lost_counterexample :
    c4Run.log.status = SyncStatus.failed ∧
    c4Run.log.errorMessage = some "RateLimitError" ∧
    c4Run.store = [{ memberKeyNumeric := 1
                     modificationTimestamp := some 10
                     payload := "a" }] ∧
    c4Run.log.recordsProcessed = 0 ∧
    c4Run.log.recordsCreated = 0 := by
  decide

/-- Shape of the finalized member log: every run either completes, or
fails with the counters still at their creation defaults, `completed_at`
set and an error message stored. -/
theorem syncMembers_final_log (env : MemberEnv) :
    (syncMembers env).log.status = SyncStatus.completed ∨
      ((syncMembers env).log.recordsProcessed = 0 ∧
       (syncMembers env).log.recordsCreated = 0 ∧
       (syncMembers env).log.recordsUpdated = 0 ∧
       (syncMembers env).log.completedAt = true ∧
       (syncMembers env).log.errorMessage.isSome = true) := by
  unfold syncMembers
  dsimp only
  repeat' split
  all_goals simp [newSyncLog]

/-- Shape of the finalized property log: as for members. -/
theorem syncProperties_final_log (env : PropEnv) :
    (syncProperties env).log.status = SyncStatus.completed ∨
      ((syncProperties env).log.recordsProcessed = 0 ∧
       (syncProperties env).log.recordsCreated = 0 ∧
       (syncProperties env).log.recordsUpdated = 0 ∧
       (syncProperties env).log.completedAt = true ∧
       (syncProperties env).log.errorMessage.isSome = true) := by
  unfold syncProperties
  dsimp only
  repeat' split
  all_goals simp [newSyncLog]

/-- C4 as amended: every failed sync run (members or properties) has
status `failed`, `completed_at` set and an error message stored, but its
persisted `records_processed` / `records_created` / `records_updated`
counters are the zero defaults from run creation — the locally accumulated
counters are never copied to the log on the failure path. -/
theorem C4_failure_path_amended (envM : MemberEnv) (envP : PropEnv) :
    ((syncMembers envM).log.status = SyncStatus.failed →
       (syncMembers envM).log.recordsProcessed = 0 ∧
       (syncMembers envM).log.recordsCreated = 0 ∧
       (syncMembers envM).log.recordsUpdated = 0 ∧
       (syncMembers envM).log.completedAt = true ∧
       (syncMembers envM).log.errorMessage.isSome = true) ∧
    ((syncProperties envP).log.status = SyncStatus.failed →
       (syncProperties envP).log.recordsProcessed = 0 ∧
       (syncProperties envP).log.recordsCreated = 0 ∧
       (syncProperties envP).log.recordsUpdated = 0 ∧
       (syncProperties envP).log.completedAt = true ∧
       (syncProperties envP).log.errorMessage.isSome = true) := by
  constructor
  · intro hst
    rcases syncMembers_final_log envM with hc | hr
    · rw [hst] at hc
      exact absurd hc (by decide)
    · exact hr
  · intro hst
    rcases syncProperties_final_log envP with hc | hr
    · rw [hst] at hc
      exact absurd hc (by decide)
    · exact hr

/-- Witness for C4 as amended: the C4 scenario run and a token-absent
property run are both failed runs with zero persisted counters. -/
theorem C4_failure_path_amended_witness :
    c4Run.log.recordsProcessed = 0 ∧
    c4Run.log.recordsCreated = 0 ∧
    c4Run.log.recordsUpdated = 0 ∧
    c4Run.log.completedAt = true ∧
    c4Run.log.errorMessage.isSome = true :=
  (C4_failure_path_amended
    { tokenPresent := true
      fullSync := true
      logs := []
      store := []
      client := clientContinuationDoubleRateLimited
      fuel := 1 }
    { tokenPresent := false
      fullSync := false
      year := 2024
      logs := []
      store := []
      client := { pageFetch := fun _ _ => FetchResult.ok [] }
      fuel := 0 }).1 (by decide)

/-- C6 counterexample: run 1 completes with watermark 10; run 2 — the next
incremental members run, whose incremental floor comes from run 1 via
`get_last_successful_sync` — fetches only a record with timestamp 5 (the
newer record is no longer returned) and completes storing watermark 5,
strictly below the previous successful run's watermark 10.  Stored
watermarks are therefore not monotone across successful runs. -/
theorem C6_watermark_regression_counterexample :
    c6Run1.log.status = SyncStatus.completed ∧
    c6Run1.log.lastModificationTimestamp = some 10 ∧
    getLastSuccessfulSync c6Run1.logsAfter SyncType.members = some c6Run1.log ∧
    c6Run2.log.status = SyncStatus.completed ∧
    c6Run2.log.syncType = SyncType.members ∧
    c6Run2.log.lastModificationTimestamp = some 5 ∧
    ((5 : Int) < 10) := by
  decide

/-- C7 counterexample: a rate limit on the very first member page fetch is
not retried — although the same client would succeed on a second attempt,
the run immediately fails with the rate-limit error, contradicting the
claim that a rate-limit on any page fetch, including the first, is
retried once. -/
theorem C7_first_page_no_retry_counterexample :
    clientFirstPageRateLimited.firstPage 0 = FetchResult.rateLimited ∧
    clientFirstPageRateLimited.firstPage 1 =
      FetchResult.ok { value := [], next := none } ∧
    (syncMembers
      { tokenPresent := true
        fullSync := true
        logs := []
        store := []
        client := clientFirstPageRateLimited
        fuel := 1 }).log.status = SyncStatus.failed ∧
    (syncMembers
      { tokenPresent := true
        fullSync := true
        logs := []
        store := []
        client := clientFirstPageRateLimited
        fuel := 1 }).log.errorMessage = some "RateLimitError" ∧
    (syncMembers
      { tokenPresent := true
        fullSync := true
        logs := []
        store := []
        client := clientFirstPageRateLimited
        fuel := 1 }).raised = some "RateLimitError" := by
  decide

/-- C9 counterexample: recomputing a year's stats when the agent has no
qualifying transaction left does not remove the agent's pre-existing
`AgentStats` row for that year — the run upserts nothing
(`stats_updated = 0`) yet the stale row is still present (and re-ranked),
contradicting the claim that such an agent has no row after the
recomputation. -/
theorem C9_stale_row_retained_counterexample :
    c9Run.updatedCount = 0 ∧
    (c9Run.stats.filter (fun r => r.memberKey == 1 && r.year == 2024)).length = 1 := by
  decide

/-- C10: a fetched member record whose `MemberKeyNumeric` is absent, null
or zero is silently skipped: the store and the created/updated counters
are unchanged and no error is raised, yet `records_processed` is still
incremented and the record's modification timestamp (when present) still
advances the candidate watermark. -/
theorem C10_falsy_member_key_skipped (lastTs : Option Int)
    (st : MemberSyncState) (rec : MemberRec)
    (h : rec.memberKeyNumeric = none ∨ rec.memberKeyNumeric = some 0) :
    (processMemberRecord lastTs st rec).store = st.store ∧
    (processMemberRecord lastTs st rec).created = st.created ∧
    (processMemberRecord lastTs st rec).updated = st.updated ∧
    (processMemberRecord lastTs st rec).processed = st.processed + 1 ∧
    (processMemberRecord lastTs st rec).watermark
      = updateWatermark st.watermark rec.modificationTimestamp := by
  have hrm : ∀ s : MemberSyncState, reconcileMember s rec = s := by
    intro s
    rcases h with hk | hk
    · simp [reconcileMember, hk]
    · simp [reconcileMember, hk]
  cases hts : rec.modificationTimestamp with
  | none =>
    simp [processMemberRecord, hts, hrm, updateWatermark]
  | some t =>
    cases hl : lastTs with
    | none =>
      simp [processMemberRecord, hts, hrm]
    | some floor =>
      by_cases hle : t ≤ floor
      · simp [processMemberRecord, hts, hle]
      · simp [processMemberRecord, hts, hle, hrm]

/-- Witness for C10 at a concrete keyless record carrying timestamp 4. -/
theorem C10_falsy_member_key_skipped_witness :
    (processMemberRecord none
      { store := [], processed := 0, created := 0, updated := 0, watermark := none }
      { memberKeyNumeric := none
        modificationTimestamp := some 4
        payload := "x" }).store = [] ∧
    (processMemberRecord none
      { store := [], processed := 0, created := 0, updated := 0, watermark := none }
      { memberKeyNumeric := none
        modificationTimestamp := some 4
        payload := "x" }).created = 0 ∧
    (processMemberRecord none
      { store := [], processed := 0, created := 0, updated := 0, watermark := none }
      { memberKeyNumeric := none
        modificationTimestamp := some 4
        payload := "x" }).updated = 0 ∧
    (processMemberRecord none
      { store := [], processed := 0, created := 0, updated := 0, watermark := none }
      { memberKeyNumeric := none
        modificationTimestamp := some 4
        payload := "x" }).processed = 0 + 1 ∧
    (processMemberRecord none
      { store := [], processed := 0, created := 0, updated := 0, watermark := none }
      { memberKeyNumeric := none
        modificationTimestamp := some 4
        payload := "x" }).watermark = updateWatermark none (some 4) :=
  C10_falsy_member_key_skipped none
    { store := [], processed := 0, created := 0, updated := 0, watermark := none }
    { memberKeyNumeric := none
      modificationTimestamp := some 4
      payload := "x" }
    (Or.inl rfl)

/-! ### Component lemmas for the member loop body -/

theorem reconcileMember_processed (st : MemberSyncState) (rec : MemberRec) :
    (reconcileMember st rec).processed = st.processed := by
  unfold reconcileMember
  repeat' split
  all_goals rfl

theorem reconcileMember_watermark (st : MemberSyncState) (rec : MemberRec) :
    (reconcileMember st rec).watermark = st.watermark := by
  unfold reconcileMember
  repeat' split
  all_goals rfl

theorem reconcileMember_scu (st : MemberSyncState) (rec : MemberRec) :
    scuMember (reconcileMember st rec) = reconcileStep (scuMember st) rec := by
  unfold reconcileMember reconcileStep scuMember
  repeat' split
  all_goals simp_all

theorem processMemberRecord_processed (lastTs : Option Int) (st : MemberSyncState)
    (rec : MemberRec) :
    (processMemberRecord lastTs st rec).processed = st.processed + 1 := by
  unfold processMemberRecord
  dsimp only
  cases rec.modificationTimestamp with
  | none => rw [reconcileMember_processed]
  | some t =>
    cases lastTs with
    | none => rw [reconcileMember_processed]
    | some floor =>
      by_cases h : t ≤ floor
      · simp [h]
      · simp [h, reconcileMember_processed]

theorem processMemberRecord_watermark (lastTs : Option Int) (st : MemberSyncState)
    (rec : MemberRec) :
    (processMemberRecord lastTs st rec).watermark
      = updateWatermark st.watermark rec.modificationTimestamp := by
  unfold processMemberRecord
  dsimp only
  cases hts : rec.modificationTimestamp with
  | none => rw [reconcileMember_watermark]; simp [updateWatermark]
  | some t =>
    cases lastTs with
    | none => rw [reconcileMember_watermark]
    | some floor =>
      by_cases h : t ≤ floor
      · simp [h]
      · simp [h, reconcileMember_watermark]

theorem processMemberRecord_scu_skip (T : Int) (st : MemberSyncState)
    (rec : MemberRec) (t : Int) (hts : rec.modificationTimestamp = some t)
    (hle : t ≤ T) :
    scuMember (processMemberRecord (some T) st rec) = scuMember st := by
  unfold processMemberRecord
  simp [hts, hle, scuMember]

theorem processMemberRecord_scu_keep (T : Int) (st : MemberSyncState)
    (rec : MemberRec) (t : Int) (hts : rec.modificationTimestamp = some t)
    (hgt : T < t) :
    scuMember (processMemberRecord (some T) st rec)
      = reconcileStep (scuMember st) rec := by
  unfold processMemberRecord
  simp only [hts, not_le.mpr hgt, if_false]
  rw [reconcileMember_scu]
  rfl

/-! ### Fold lemmas for the member record loop -/

theorem foldl_processMemberRecord_processed (lastTs : Option Int)
    (recs : List MemberRec) (st : MemberSyncState) :
    (recs.foldl (processMemberRecord lastTs) st).processed
      = st.processed + recs.length := by
  induction recs generalizing st with
  | nil => simp
  | cons r rs ih =>
    rw [List.foldl_cons, ih, processMemberRecord_processed]
    simp
    omega

theorem foldl_processMemberRecord_watermark (lastTs : Option Int)
    (recs : List MemberRec) (st : MemberSyncState) :
    (recs.foldl (processMemberRecord lastTs) st).watermark
      = recs.foldl (fun w r => updateWatermark w r.modificationTimestamp)
          st.watermark := by
  induction recs generalizing st with
  | nil => rfl
  | cons r rs ih =>
    rw [List.foldl_cons, ih, List.foldl_cons, processMemberRecord_watermark]

theorem foldl_processMemberRecord_scu_filter (T : Int) (recs : List MemberRec)
    (st : MemberSyncState)
    (hall : ∀ r ∈ recs, r.modificationTimestamp.isSome = true) :
    scuMember (recs.foldl (processMemberRecord (some T)) st)
      = (recs.filter (newerThan T)).foldl reconcileStep (scuMember st) := by
  induction recs generalizing st with
  | nil => rfl
  | cons r rs ih =>
    obtain ⟨t, hts⟩ := Option.isSome_iff_exists.mp
      (hall r (List.mem_cons_self r rs))
    have hrs : ∀ x ∈ rs, x.modificationTimestamp.isSome = true := fun x hx =>
      hall x (List.mem_cons_of_mem r hx)
    by_cases hgt : T < t
    · have hkeep : newerThan T r = true := by simp [newerThan, hts, hgt]
      rw [List.foldl_cons, List.filter_cons_of_pos hkeep, List.foldl_cons,
        ih _ hrs, processMemberRecord_scu_keep T st r t hts hgt]
    · have hle : t ≤ T := not_lt.mp hgt
      have hdrop : newerThan T r = false := by simp [newerThan, hts, not_lt.mp hgt]
      rw [List.foldl_cons, List.filter_cons_of_neg (by simp [hdrop]),
        ih _ hrs, processMemberRecord_scu_skip T st r t hts hle]

/-! ### Watermark bound lemmas -/

theorem updateWatermark_some_mono (m : Int) (ts : Option Int) :
    ∃ n, updateWatermark (some m) ts = some n ∧ m ≤ n := by
  cases ts with
  | none => exact ⟨m, rfl, le_refl m⟩
  | some t =>
    by_cases h : t > m
    · exact ⟨t, by simp [updateWatermark, h], le_of_lt h⟩
    · exact ⟨m, by simp [updateWatermark, h], le_refl m⟩

theorem updateWatermark_insert_le (w : Option Int) (t : Int) :
    ∃ m, updateWatermark w (some t) = some m ∧ t ≤ m := by
  cases w with
  | none => exact ⟨t, rfl, le_refl t⟩
  | some m0 =>
    by_cases h : t > m0
    · exact ⟨t, by simp [updateWatermark, h], le_refl t⟩
    · exact ⟨m0, by simp [updateWatermark, h], not_lt.mp h⟩

theorem foldWatermark_mono (recs : List MemberRec) (w : Option Int) (m : Int)
    (hw : w = some m) :
    ∃ n, recs.foldl (fun w r => updateWatermark w r.modificationTimestamp) w
        = some n ∧ m ≤ n := by
  induction recs generalizing w m with
  | nil => exact ⟨m, hw, le_refl m⟩
  | cons r rs ih =>
    obtain ⟨m1, hm1, hle1⟩ := updateWatermark_some_mono m r.modificationTimestamp
    rw [List.foldl_cons, hw]
    obtain ⟨n, hn, hle2⟩ := ih (updateWatermark (some m) r.modificationTimestamp) m1 hm1
    exact ⟨n, hn, le_trans hle1 hle2⟩

theorem foldWatermark_ge_mem (recs : List MemberRec) (w : Option Int)
    (r : MemberRec) (t : Int) (hr : r ∈ recs)
    (hts : r.modificationTimestamp = some t) :
    ∃ n, recs.foldl (fun w r => updateWatermark w r.modificationTimestamp) w
        = some n ∧ t ≤ n := by
  induction recs generalizing w with
  | nil => cases hr
  | cons a as ih =>
    rw [List.foldl_cons]
    rcases List.mem_cons.mp hr with heq | hmem
    · subst heq
      rw [hts]
      obtain ⟨m, hm, hle⟩ := updateWatermark_insert_le w t
      rw [hm]
      obtain ⟨n, hn, hle2⟩ := foldWatermark_mono as (some m) m rfl
      exact ⟨n, hn, le_trans hle hle2⟩
    · exact ih (updateWatermark w a.modificationTimestamp) hmem

/-- C5: in incremental member sync with floor `T`, over a fetched record
set whose records all carry parseable timestamps and which contains both
records at or below `T` and records above `T`: the store and the
created/updated counters are exactly those produced by reconciling only
the records newer than `T` (the others are skipped), every record still
counts toward `records_processed`, and the tracked watermark — the
maximum over all fetched timestamps, skipped records included — ends at
or above `T`. -/
theorem C5_incremental_skip_and_watermark (T : Int) (recs : List MemberRec)
    (st : MemberSyncState)
    (hall : ∀ r ∈ recs, r.modificationTimestamp.isSome = true)
    (hold : ∃ r ∈ recs, ∃ t, r.modificationTimestamp = some t ∧ t ≤ T)
    (hnew : ∃ r ∈ recs, ∃ t, r.modificationTimestamp = some t ∧ T < t) :
    scuMember (recs.foldl (processMemberRecord (some T)) st)
      = (recs.filter (newerThan T)).foldl reconcileStep (scuMember st) ∧
    (recs.foldl (processMemberRecord (some T)) st).processed
      = st.processed + recs.length ∧
    (∃ m, (recs.foldl (processMemberRecord (some T)) st).watermark = some m ∧
      T ≤ m) := by
  refine ⟨foldl_processMemberRecord_scu_filter T recs st hall,
    foldl_processMemberRecord_processed (some T) recs st, ?_⟩
  obtain ⟨r, hr, t, hts, hgt⟩ := hnew
  rw [foldl_processMemberRecord_watermark]
  obtain ⟨n, hn, hle⟩ := foldWatermark_ge_mem recs st.watermark r t hr hts
  exact ⟨n, hn, le_trans (le_of_lt hgt) hle⟩

/-- Witness for C5: floor 10, one record at timestamp 5 and one at 20,
starting from an empty state. -/
theorem C5_incremental_skip_and_watermark_witness :
    scuMember ([{ memberKeyNumeric := some 1
                  modificationTimestamp := some 5
                  payload := "o" },
                { memberKeyNumeric := some 2
                  modificationTimestamp := some 20
                  payload := "n" }].foldl (processMemberRecord (some 10))
      { store := [], processed := 0, created := 0, updated := 0, watermark := none })
      = ([{ memberKeyNumeric := some 1
            modificationTimestamp := some 5
            payload := "o" },
          { memberKeyNumeric := some 2
            modificationTimestamp := some 20
            payload := "n" }].filter (newerThan 10)).foldl reconcileStep
          (scuMember { store := [], processed := 0, created := 0, updated := 0,
                       watermark := none }) ∧
    ([{ memberKeyNumeric := some 1
        modificationTimestamp := some 5
        payload := "o" },
      { memberKeyNumeric := some 2
        modificationTimestamp := some 20
        payload := "n" }].foldl (processMemberRecord (some 10))
      { store := [], processed := 0, created := 0, updated := 0,
        watermark := none }).processed = 0 + 2 ∧
    (∃ m, ([{ memberKeyNumeric := some 1
              modificationTimestamp := some 5
              payload := "o" },
            { memberKeyNumeric := some 2
              modificationTimestamp := some 20
              payload := "n" }].foldl (processMemberRecord (some 10))
      { store := [], processed := 0, created := 0, updated := 0,
        watermark := none }).watermark = some m ∧ (10 : Int) ≤ m) :=
  C5_incremental_skip_and_watermark 10 _ _
    (by decide)
    ⟨{ memberKeyNumeric := some 1
       modificationTimestamp := some 5
       payload := "o" }, by decide, 5, rfl, by decide⟩
    ⟨{ memberKeyNumeric := some 2
       modificationTimestamp := some 20
       payload := "n" }, by decide, 20, rfl, by decide⟩

/-- A single-page member response terminates the pagination loop
immediately with no error, leaving the fold over its records. -/
theorem memberSyncLoop_single_page (client : MemberClient) (lastTs : Option Int)
    (fuel pageIdx : Nat) (resp : MemberResponse) (st : MemberSyncState)
    (hnext : resp.next = none) :
    memberSyncLoop client lastTs fuel pageIdx resp st
      = (resp.value.foldl (processMemberRecord lastTs) st, none) := by
  cases fuel with
  | zero =>
    unfold memberSyncLoop
    rw [hnext]
  | succ n =>
    unfold memberSyncLoop
    rw [hnext]

/-- C6 as amended: a completed member run's stored watermark is the
maximum parseable modification timestamp over the records it fetched, so
it is at or above the previous successful run's watermark `T` whenever
some fetched record carries a timestamp at or above `T` (in particular
whenever the fetch still includes the records the previous run saw); a
run whose fetched records are all strictly older than `T` — or that
fetches nothing — can store a smaller or null watermark, as the
counterexample shows. -/
theorem C6_watermark_bound_amended (env : MemberEnv) (resp : MemberResponse)
    (T t : Int) (r : MemberRec)
    (htok : env.tokenPresent = true)
    (hfp : env.client.firstPage 0 = FetchResult.ok resp)
    (hnext : resp.next = none)
    (hr : r ∈ resp.value) (hts : r.modificationTimestamp = some t)
    (hT : T ≤ t) :
    (syncMembers env).log.status = SyncStatus.completed ∧
    (∃ m, (syncMembers env).log.lastModificationTimestamp = some m ∧ T ≤ m) := by
  unfold syncMembers
  rw [if_pos htok, hfp]
  dsimp only
  rw [memberSyncLoop_single_page env.client _ env.fuel 0 resp _ hnext]
  dsimp only
  refine ⟨rfl, ?_⟩
  rw [foldl_processMemberRecord_watermark]
  obtain ⟨n, hn, hle⟩ := foldWatermark_ge_mem resp.value none r t hr hts
  exact ⟨n, hn, le_trans hT hle⟩

/-- Witness for C6 as amended: the `clientOnePageTs10` run, with previous
watermark 7 and the fetched record at timestamp 10. -/
theorem C6_watermark_bound_amended_witness :
    (syncMembers
      { tokenPresent := true
        fullSync := false
        logs := []
        store := []
        client := clientOnePageTs10
        fuel := 1 }).log.status = SyncStatus.completed ∧
    (∃ m, (syncMembers
      { tokenPresent := true
        fullSync := false
        logs := []
        store := []
        client := clientOnePageTs10
        fuel := 1 }).log.lastModificationTimestamp = some m ∧ (7 : Int) ≤ m) :=
  C6_watermark_bound_amended
    { tokenPresent := true
      fullSync := false
      logs := []
      store := []
      client := clientOnePageTs10
      fuel := 1 }
    { value := [{ memberKeyNumeric := some 1
                  modificationTimestamp := some 10
                  payload := "a" }]
      next := none }
    7 10
    { memberKeyNumeric := some 1
      modificationTimestamp := some 10
      payload := "a" }
    rfl rfl rfl (by decide) rfl (by decide)

/-- C7 as amended: the rate-limit handling differs between the two sync
entry points.  In `sync_members` the initial page fetch has no handler — a
rate limit there immediately fails the run — while each continuation page
fetch is retried exactly once after the 30-second wait: a successful retry
lets the run complete with no error recorded, a second rate limit fails
the run with the error message stored.  In `sync_properties` every page
fetch, the first included, gets the single retry with the same two
outcomes. -/
theorem C7_rate_limit_retry_amended :
    (∀ env : MemberEnv, env.tokenPresent = true →
      env.client.firstPage 0 = FetchResult.rateLimited →
      (syncMembers env).log.status = SyncStatus.failed ∧
      (syncMembers env).log.errorMessage = some "RateLimitError" ∧
      (syncMembers env).raised = some "RateLimitError") ∧
    (∀ (env : MemberEnv) (v1 v2 : List MemberRec) (fuel : Nat),
      env.tokenPresent = true →
      env.fuel = fuel + 1 →
      env.client.firstPage 0 = FetchResult.ok { value := v1, next := some true } →
      env.client.nextPage 0 0 = FetchResult.rateLimited →
      env.client.nextPage 0 1 = FetchResult.ok { value := v2, next := none } →
      (syncMembers env).log.status = SyncStatus.completed ∧
      (syncMembers env).log.errorMessage = none ∧
      (syncMembers env).raised = none) ∧
    (∀ (env : MemberEnv) (v1 : List MemberRec) (fuel : Nat),
      env.tokenPresent = true →
      env.fuel = fuel + 1 →
      env.client.firstPage 0 = FetchResult.ok { value := v1, next := some true } →
      env.client.nextPage 0 0 = FetchResult.rateLimited →
      env.client.nextPage 0 1 = FetchResult.rateLimited →
      (syncMembers env).log.status = SyncStatus.failed ∧
      (syncMembers env).log.errorMessage = some "RateLimitError" ∧
      (syncMembers env).raised = some "RateLimitError") ∧
    (∀ (env : PropEnv) (data : List PropertyRec) (fuel : Nat),
      env.tokenPresent = true →
      env.fuel = fuel + 1 →
      env.client.pageFetch 1 0 = FetchResult.rateLimited →
      env.client.pageFetch 1 1 = FetchResult.ok data →
      data.length < 200 →
      (syncProperties env).log.status = SyncStatus.completed ∧
      (syncProperties env).log.errorMessage = none ∧
      (syncProperties env).raised = none) ∧
    (∀ (env : PropEnv) (fuel : Nat),
      env.tokenPresent = true →
      env.fuel = fuel + 1 →
      env.client.pageFetch 1 0 = FetchResult.rateLimited →
      env.client.pageFetch 1 1 = FetchResult.rateLimited →
      (syncProperties env).log.status = SyncStatus.failed ∧
      (syncProperties env).log.errorMessage = some "RateLimitError" ∧
      (syncProperties env).raised = some "RateLimitError") := by
  refine ⟨?_, ?_, ?_, ?_, ?_⟩
  · intro env htok hfp
    unfold syncMembers
    rw [if_pos htok, hfp]
    exact ⟨rfl, rfl, rfl⟩
  · intro env v1 v2 fuel htok hfuel hfp hn0 hn1
    unfold syncMembers
    rw [if_pos htok, hfp]
    dsimp only
    rw [hfuel]
    unfold memberSyncLoop
    dsimp only
    rw [hn0, hn1]
    dsimp only
    rw [memberSyncLoop_single_page env.client _ fuel (0 + 1) ⟨v2, none⟩ _ rfl]
    exact ⟨rfl, rfl, rfl⟩
  · intro env v1 fuel htok hfuel hfp hn0 hn1
    unfold syncMembers
    rw [if_pos htok, hfp]
    dsimp only
    rw [hfuel]
    unfold memberSyncLoop
    dsimp only
    rw [hn0, hn1]
    exact ⟨rfl, rfl, rfl⟩
  · intro env data fuel htok hfuel hp0 hp1 hlen
    unfold syncProperties
    rw [if_pos htok]
    dsimp only
    rw [hfuel]
    unfold propertySyncLoop propertyFetchPage
    rw [hp0, hp1]
    dsimp only
    by_cases hemp : data.isEmpty
    · rw [if_pos hemp]
      exact ⟨rfl, rfl, rfl⟩
    · rw [if_neg hemp, if_pos (by simpa using hlen)]
      exact ⟨rfl, rfl, rfl⟩
  · intro env fuel htok hfuel hp0 hp1
    unfold syncProperties
    rw [if_pos htok]
    dsimp only
    rw [hfuel]
    unfold propertySyncLoop propertyFetchPage
    rw [hp0, hp1]
    exact ⟨rfl, rfl, rfl⟩

/-- Witness for C7 as amended: concrete runs exercising all five cases —
members first-page rate limit (fails), members continuation retry success
(completes), members continuation double rate limit (fails), properties
first-page retry success (completes), properties double rate limit
(fails). -/
theorem C7_rate_limit_retry_amended_witness :
    ((syncMembers
      { tokenPresent := true
        fullSync := true
        logs := []
        store := []
        client := clientFirstPageRateLimited
        fuel := 1 }).log.status = SyncStatus.failed ∧
     (syncMembers
      { tokenPresent := true
        fullSync := true
        logs := []
        store := []
        client := clientFirstPageRateLimited
        fuel := 1 }).log.errorMessage = some "RateLimitError" ∧
     (syncMembers
      { tokenPresent := true
        fullSync := true
        logs := []
        store := []
        client := clientFirstPageRateLimited
        fuel := 1 }).raised = some "RateLimitError") ∧
    ((syncMembers
      { tokenPresent := true
        fullSync := true
        logs := []
        store := []
        client := { firstPage := fun _ => FetchResult.ok { value := [], next := some true }
                    nextPage := fun _ a =>
                      if a == 0 then FetchResult.rateLimited
                      else FetchResult.ok { value := [], next := none } }
        fuel := 1 }).log.status = SyncStatus.completed ∧
     (syncMembers
      { tokenPresent := true
        fullSync := true
        logs := []
        store := []
        client := { firstPage := fun _ => FetchResult.ok { value := [], next := some true }
                    nextPage := fun _ a =>
                      if a == 0 then FetchResult.rateLimited
                      else FetchResult.ok { value := [], next := none } }
        fuel := 1 }).log.errorMessage = none ∧
     (syncMembers
      { tokenPresent := true
        fullSync := true
        logs := []
        store := []
        client := { firstPage := fun _ => FetchResult.ok { value := [], next := some true }
                    nextPage := fun _ a =>
                      if a == 0 then FetchResult.rateLimited
                      else FetchResult.ok { value := [], next := none } }
        fuel := 1 }).raised = none) ∧
    ((syncMembers
      { tokenPresent := true
        fullSync := true
        logs := []
        store := []
        client := clientContinuationDoubleRateLimited
        fuel := 1 }).log.status = SyncStatus.failed ∧
     (syncMembers
      { tokenPresent := true
        fullSync := true
        logs := []
        store := []
        client := clientContinuationDoubleRateLimited
        fuel := 1 }).log.errorMessage = some "RateLimitError" ∧
     (syncMembers
      { tokenPresent := true
        fullSync := true
        logs := []
        store := []
        client := clientContinuationDoubleRateLimited
        fuel := 1 }).raised = some "RateLimitError") ∧
    ((syncProperties
      { tokenPresent := true
        fullSync := false
        year := 2024
        logs := []
        store := []
        client := { pageFetch := fun _ a =>
          if a == 0 then FetchResult.rateLimited else FetchResult.ok [] }
        fuel := 1 }).log.status = SyncStatus.completed ∧
     (syncProperties
      { tokenPresent := true
        fullSync := false
        year := 2024
        logs := []
        store := []
        client := { pageFetch := fun _ a =>
          if a == 0 then FetchResult.rateLimited else FetchResult.ok [] }
        fuel := 1 }).log.errorMessage = none ∧
     (syncProperties
      { tokenPresent := true
        fullSync := false
        year := 2024
        logs := []
        store := []
        client := { pageFetch := fun _ a =>
          if a == 0 then FetchResult.rateLimited else FetchResult.ok [] }
        fuel := 1 }).raised = none) ∧
    ((syncProperties
      { tokenPresent := true
        fullSync := false
        year := 2024
        logs := []
        store := []
        client := { pageFetch := fun _ _ => FetchResult.rateLimited }
        fuel := 1 }).log.status = SyncStatus.failed ∧
     (syncProperties
      { tokenPresent := true
        fullSync := false
        year := 2024
        logs := []
        store := []
        client := { pageFetch := fun _ _ => FetchResult.rateLimited }
        fuel := 1 }).log.errorMessage = some "RateLimitError" ∧
     (syncProperties
      { tokenPresent := true
        fullSync := false
        year := 2024
        logs := []
        store := []
        client := { pageFetch := fun _ _ => FetchResult.rateLimited }
        fuel := 1 }).raised = some "RateLimitError") :=
  ⟨C7_rate_limit_retry_amended.1 _ rfl rfl,
   C7_rate_limit_retry_amended.2.1 _ [] [] 0 rfl rfl rfl rfl rfl,
   C7_rate_limit_retry_amended.2.2.1 _
     [{ memberKeyNumeric := some 1
        modificationTimestamp := some 10
        payload := "a" }] 0 rfl rfl rfl rfl rfl,
   C7_rate_limit_retry_amended.2.2.2.1 _ [] 0 rfl rfl rfl rfl (by decide),
   C7_rate_limit_retry_amended.2.2.2.2 _ 0 rfl rfl rfl rfl⟩

/-! ### Sorting lemmas for the descending-volume order -/

theorem insertByVolume_perm (x : AgentStatsRow) (l : List AgentStatsRow) :
    List.Perm (insertByVolume x l) (x :: l) := by
  induction l with
  | nil => exact List.Perm.refl _
  | cons y ys ih =>
    unfold insertByVolume
    by_cases h : y.totalVolume < x.totalVolume
    · rw [if_pos h]
    · rw [if_neg h]
      exact ((ih.cons y).trans (List.Perm.swap x y ys))

theorem sortByVolumeDesc_perm (l : List AgentStatsRow) :
    List.Perm (sortByVolumeDesc l) l := by
  induction l with
  | nil => exact List.Perm.refl _
  | cons x xs ih =>
    have h1 : sortByVolumeDesc (x :: xs) = insertByVolume x (sortByVolumeDesc xs) := rfl
    rw [h1]
    exact (insertByVolume_perm x _).trans (ih.cons x)

theorem mem_insertByVolume {z x : AgentStatsRow} {l : List AgentStatsRow}
    (h : z ∈ insertByVolume x l) : z = x ∨ z ∈ l := by
  have := (insertByVolume_perm x l).mem_iff.mp h
  simpa using this

theorem insertByVolume_pairwise (x : AgentStatsRow) (l : List AgentStatsRow)
    (h : l.Pairwise (fun a b => b.totalVolume ≤ a.totalVolume)) :
    (insertByVolume x l).Pairwise (fun a b => b.totalVolume ≤ a.totalVolume) := by
  induction l with
  | nil => simp [insertByVolume]
  | cons y ys ih =>
    rcases List.pairwise_cons.mp h with ⟨hy, hys⟩
    unfold insertByVolume
    by_cases hlt : y.totalVolume < x.totalVolume
    · simp only [hlt, if_true]
      refine List.pairwise_cons.mpr ⟨?_, h⟩
      intro z hz
      rcases List.mem_cons.mp hz with rfl | hz2
      · exact le_of_lt hlt
      · exact le_trans (hy z hz2) (le_of_lt hlt)
    · simp only [hlt, if_false]
      refine List.pairwise_cons.mpr ⟨?_, ih hys⟩
      intro z hz
      rcases mem_insertByVolume hz with rfl | hz2
      · exact not_lt.mp hlt
      · exact hy z hz2

theorem sortByVolumeDesc_pairwise (l : List AgentStatsRow) :
    (sortByVolumeDesc l).Pairwise (fun a b => b.totalVolume ≤ a.totalVolume) := by
  induction l with
  | nil => simp [sortByVolumeDesc]
  | cons x xs ih => exact insertByVolume_pairwise x (sortByVolumeDesc xs) ih

/-! ### Lemmas about the rank-assignment recursion -/

theorem assignRanksFrom_map_eq (upd : AgentStatsRow → Nat → AgentStatsRow)
    {β : Type} (f : AgentStatsRow → β) (hf : ∀ r k, f (upd r k) = f r) :
    ∀ (n : Nat) (l : List AgentStatsRow),
      (assignRanksFrom upd n l).map f = l.map f := by
  intro n l
  induction l generalizing n with
  | nil => rfl
  | cons x xs ih =>
    unfold assignRanksFrom
    simp [hf, ih]

theorem assignRanksFrom_map_getter (upd : AgentStatsRow → Nat → AgentStatsRow)
    (g : AgentStatsRow → Option Nat) (hg : ∀ r k, g (upd r k) = some k) :
    ∀ (n : Nat) (l : List AgentStatsRow),
      (assignRanksFrom upd n l).map g = (List.range' n l.length).map some := by
  intro n l
  induction l generalizing n with
  | nil => rfl
  | cons x xs ih =>
    unfold assignRanksFrom
    simp only [List.map_cons, hg, List.length_cons, List.range'_succ, ih]

theorem assignRanksFrom_rank_lb (upd : AgentStatsRow → Nat → AgentStatsRow)
    (g : AgentStatsRow → Option Nat) (hg : ∀ r k, g (upd r k) = some k) :
    ∀ (n : Nat) (l : List AgentStatsRow) (e : AgentStatsRow) (k : Nat),
      e ∈ assignRanksFrom upd n l → g e = some k → n ≤ k := by
  intro n l
  induction l generalizing n with
  | nil => intro e k he; cases he
  | cons x xs ih =>
    intro e k he hk
    unfold assignRanksFrom at he
    rcases List.mem_cons.mp he with rfl | he2
    · rw [hg] at hk
      injection hk with hnk
      omega
    · exact le_trans (Nat.le_succ n) (ih (n + 1) e k he2 hk)

theorem assignRanksFrom_mem_vol (upd : AgentStatsRow → Nat → AgentStatsRow)
    (hv : ∀ r k, (upd r k).totalVolume = r.totalVolume) :
    ∀ (n : Nat) (l : List AgentStatsRow) (e : AgentStatsRow),
      e ∈ assignRanksFrom upd n l → ∃ y ∈ l, e.totalVolume = y.totalVolume := by
  intro n l
  induction l generalizing n with
  | nil => intro e he; cases he
  | cons x xs ih =>
    intro e he
    unfold assignRanksFrom at he
    rcases List.mem_cons.mp he with rfl | he2
    · exact ⟨x, List.mem_cons_self x xs, hv x n⟩
    · obtain ⟨y, hy, hvol⟩ := ih (n + 1) e he2
      exact ⟨y, List.mem_cons_of_mem x hy, hvol⟩

theorem assignRanksFrom_monotone (upd : AgentStatsRow → Nat → AgentStatsRow)
    (g : AgentStatsRow → Option Nat)
    (hg : ∀ r k, g (upd r k) = some k)
    (hv : ∀ r k, (upd r k).totalVolume = r.totalVolume) :
    ∀ (l : List AgentStatsRow),
      l.Pairwise (fun a b => b.totalVolume ≤ a.totalVolume) →
      ∀ (n : Nat) (r s : AgentStatsRow) (i j : Nat),
        r ∈ assignRanksFrom upd n l → s ∈ assignRanksFrom upd n l →
        g r = some i → g s = some j → i < j →
        s.totalVolume ≤ r.totalVolume := by
  intro l
  induction l with
  | nil =>
    intro _ n r s i j hr
    cases hr
  | cons x xs ih =>
    intro hp n r s i j hr hs hi hj hij
    rcases List.pairwise_cons.mp hp with ⟨hhead, htail⟩
    unfold assignRanksFrom at hr hs
    rcases List.mem_cons.mp hr with rfl | hr2
    · rcases List.mem_cons.mp hs with rfl | hs2
      · exact le_refl _
      · obtain ⟨y, hy, hvol⟩ := assignRanksFrom_mem_vol upd hv (n + 1) xs s hs2
        rw [hvol, hv]
        exact hhead y hy
    · rcases List.mem_cons.mp hs with rfl | hs2
      · rw [hg] at hj
        injection hj with h2
        have hin : n + 1 ≤ i := assignRanksFrom_rank_lb upd g hg (n + 1) xs r i hr2 hi
        exact absurd hij (by omega)
      · exact ih htail (n + 1) r s i j hr2 hs2 hi hj hij

theorem assignRanksFrom_length (upd : AgentStatsRow → Nat → AgentStatsRow) :
    ∀ (n : Nat) (l : List AgentStatsRow),
      (assignRanksFrom upd n l).length = l.length := by
  intro n l
  induction l generalizing n with
  | nil => rfl
  | cons x xs ih =>
    unfold assignRanksFrom
    simp [ih]

theorem assignRanksFrom_mem_map (upd : AgentStatsRow → Nat → AgentStatsRow)
    {β : Type} (f : AgentStatsRow → β) (hf : ∀ r k, f (upd r k) = f r)
    (n : Nat) (l : List AgentStatsRow) (e : AgentStatsRow)
    (he : e ∈ assignRanksFrom upd n l) : ∃ y ∈ l, f e = f y := by
  have hmap : f e ∈ (assignRanksFrom upd n l).map f := List.mem_map_of_mem f he
  rw [assignRanksFrom_map_eq upd f hf] at hmap
  obtain ⟨y, hy, hfy⟩ := List.mem_map.mp hmap
  exact ⟨y, hy, hfy.symm⟩

/-! ### The per-association ranking fold -/

theorem setAorRanks_mem_aor (g : List AgentStatsRow) (e : AgentStatsRow)
    (he : e ∈ setAorRanks g) : ∃ y ∈ g, e.aor = y.aor := by
  unfold setAorRanks at he
  obtain ⟨y, hy, hfy⟩ := assignRanksFrom_mem_map setRankInAor (fun r => r.aor)
    (fun r k => rfl) 1 (sortByVolumeDesc g) e he
  exact ⟨y, (sortByVolumeDesc_perm g).mem_iff.mp hy, hfy⟩

theorem setAorRanks_filter_self (tbl : List AgentStatsRow) (a : Option String) :
    (setAorRanks (tbl.filter (fun r => r.aor == a))).filter (fun r => r.aor == a)
      = setAorRanks (tbl.filter (fun r => r.aor == a)) := by
  refine List.filter_eq_self.mpr ?_
  intro e he
  obtain ⟨y, hy, hay⟩ := setAorRanks_mem_aor _ e he
  have := (List.mem_filter.mp hy).2
  rw [hay]
  exact this

theorem aorRankStep_filter_eq (tbl : List AgentStatsRow) (a : Option String) :
    (aorRankStep tbl a).filter (fun r => r.aor == a)
      = setAorRanks (tbl.filter (fun r => r.aor == a)) := by
  unfold aorRankStep
  rw [List.filter_append, List.filter_filter, setAorRanks_filter_self]
  have hnil : tbl.filter (fun r => (r.aor == a) && (r.aor != a)) = [] := by
    refine List.filter_eq_nil_iff.mpr ?_
    intro r _ hcontra
    rw [Bool.and_eq_true] at hcontra
    obtain ⟨h1, h2⟩ := hcontra
    simp [bne, h1] at h2
  rw [hnil, List.nil_append]

theorem aorRankStep_filter_ne (tbl : List AgentStatsRow) (a b : Option String)
    (hba : b ≠ a) :
    (aorRankStep tbl a).filter (fun r => r.aor == b)
      = tbl.filter (fun r => r.aor == b) := by
  unfold aorRankStep
  rw [List.filter_append, List.filter_filter]
  have hgrp : (setAorRanks (tbl.filter (fun r => r.aor == a))).filter
      (fun r => r.aor == b) = [] := by
    refine List.filter_eq_nil_iff.mpr ?_
    intro e he heb
    obtain ⟨y, hy, hay⟩ := setAorRanks_mem_aor _ e he
    have hya := (List.mem_filter.mp hy).2
    have h1 : e.aor = a := by rw [hay]; exact beq_iff_eq.mp hya
    have h2 : e.aor = b := beq_iff_eq.mp heb
    exact hba (h2 ▸ h1)
  rw [hgrp, List.append_nil]
  refine List.filter_congr ?_
  intro r _
  by_cases hrb : r.aor = b
  · have h1 : (r.aor == b) = true := beq_iff_eq.mpr hrb
    have h2 : (r.aor != a) = true := by
      simp [bne, beq_eq_false_iff_ne.mpr (hrb ▸ hba)]
    rw [h1, h2]
    rfl
  · have h1 : (r.aor == b) = false := beq_eq_false_iff_ne.mpr hrb
    rw [h1, Bool.false_and]

theorem foldl_aorRankStep_filter (aors : List (Option String))
    (tbl : List AgentStatsRow) (b : Option String) (hnodup : aors.Nodup) :
    (aors.foldl aorRankStep tbl).filter (fun r => r.aor == b)
      = if b ∈ aors then setAorRanks (tbl.filter (fun r => r.aor == b))
        else tbl.filter (fun r => r.aor == b) := by
  induction aors generalizing tbl with
  | nil => simp
  | cons a as ih =>
    rcases List.nodup_cons.mp hnodup with ⟨hna, hnd⟩
    rw [List.foldl_cons]
    by_cases hba : b = a
    · subst hba
      rw [ih (aorRankStep tbl b) hnd, if_neg hna,
        aorRankStep_filter_eq, if_pos (List.mem_cons_self b as)]
    · rw [ih (aorRankStep tbl a) hnd, aorRankStep_filter_ne tbl a b hba]
      by_cases hbin : b ∈ as
      · rw [if_pos hbin, if_pos (List.mem_cons_of_mem a hbin)]
      · rw [if_neg hbin, if_neg (by
          intro hmem
          rcases List.mem_cons.mp hmem with h | h
          · exact hba h
          · exact hbin h)]

theorem aorRankStep_map_perm {β : Type} (f : AgentStatsRow → β)
    (hf : ∀ r k, f (setRankInAor r k) = f r)
    (table : List AgentStatsRow) (a : Option String) :
    List.Perm ((aorRankStep table a).map f) (table.map f) := by
  unfold aorRankStep
  rw [List.map_append]
  have h1 : List.Perm ((setAorRanks (table.filter (fun r => r.aor == a))).map f)
      ((table.filter (fun r => r.aor == a)).map f) := by
    unfold setAorRanks
    rw [assignRanksFrom_map_eq _ f hf]
    exact List.Perm.map f (sortByVolumeDesc_perm _)
  refine (List.Perm.append_left _ h1).trans ?_
  rw [← List.map_append]
  refine List.Perm.map f ?_
  refine (List.perm_append_comm).trans ?_
  have hbne : (fun r : AgentStatsRow => r.aor != a)
      = (fun r : AgentStatsRow => !(r.aor == a)) := rfl
  rw [hbne]
  exact List.filter_append_perm (fun r => r.aor == a) table

theorem foldl_aorRankStep_map_perm {β : Type} (f : AgentStatsRow → β)
    (hf : ∀ r k, f (setRankInAor r k) = f r) (aors : List (Option String))
    (table : List AgentStatsRow) :
    List.Perm ((aors.foldl aorRankStep table).map f) (table.map f) := by
  induction aors generalizing table with
  | nil => exact List.Perm.refl _
  | cons a as ih =>
    rw [List.foldl_cons]
    exact (ih (aorRankStep table a)).trans (aorRankStep_map_perm f hf table a)

theorem rankingPassYear_map_perm {β : Type} (f : AgentStatsRow → β)
    (hf1 : ∀ r k, f (setRankOverall r k) = f r)
    (hf2 : ∀ r k, f (setRankInAor r k) = f r) (stats : List AgentStatsRow) :
    List.Perm ((rankingPassYear stats).map f) (stats.map f) := by
  unfold rankingPassYear
  refine (foldl_aorRankStep_map_perm f hf2 _ _).trans ?_
  unfold setOverallRanks
  rw [assignRanksFrom_map_eq _ f hf1]
  exact List.Perm.map f (sortByVolumeDesc_perm _)

theorem rankingPassYear_group (stats : List AgentStatsRow) (a : Option String) :
    (rankingPassYear stats).filter (fun r => r.aor == a)
      = setAorRanks ((setOverallRanks stats).filter (fun r => r.aor == a)) := by
  unfold rankingPassYear
  dsimp only
  rw [foldl_aorRankStep_filter _ _ a (List.nodup_dedup _)]
  by_cases hin : a ∈ ((setOverallRanks stats).map (fun r => r.aor)).dedup
  · rw [if_pos hin]
  · rw [if_neg hin]
    have hnil : (setOverallRanks stats).filter (fun r => r.aor == a) = [] := by
      refine List.filter_eq_nil_iff.mpr ?_
      intro r hr hra
      refine hin (List.mem_dedup.mpr (List.mem_map.mpr ⟨r, hr, ?_⟩))
      exact beq_iff_eq.mp hra
    rw [hnil]
    rfl

/-- The year's rows of the table left by `calculate_agent_stats` are
exactly the ranking pass applied to the year's rows of the upserted
table. -/
theorem calculateAgentStats_year_rows (props : List PropertyRow)
    (members : List MemberRow) (stats : List AgentStatsRow) (year : Int) :
    (calculateAgentStats props members stats year).stats.filter
        (fun r => r.year == year)
      = rankingPassYear
          ((upsertAgentStats members stats year
              (agentVolumes props year)).1.filter (fun r => r.year == year)) := by
  unfold calculateAgentStats
  dsimp only
  rw [List.filter_append, List.filter_filter]
  have hnil : (upsertAgentStats members stats year (agentVolumes props year)).1.filter
      (fun r => (r.year == year) && (r.year != year)) = [] := by
    refine List.filter_eq_nil_iff.mpr ?_
    intro r _ hcontra
    rw [Bool.and_eq_true] at hcontra
    obtain ⟨h1, h2⟩ := hcontra
    simp [bne, h1] at h2
  rw [hnil, List.nil_append]
  refine List.filter_eq_self.mpr ?_
  intro e he
  have hmem : e.year ∈ (rankingPassYear
      ((upsertAgentStats members stats year (agentVolumes props year)).1.filter
        (fun r => r.year == year))).map (fun r => r.year) :=
    List.mem_map_of_mem _ he
  have hperm := rankingPassYear_map_perm (fun r => r.year)
    (fun r k => rfl) (fun r k => rfl)
    ((upsertAgentStats members stats year (agentVolumes props year)).1.filter
      (fun r => r.year == year))
  rw [hperm.mem_iff] at hmem
  obtain ⟨y, hy, hyy⟩ := List.mem_map.mp hmem
  have hyone := (List.mem_filter.mp hy).2
  rw [hyy] at hyone
  exact hyone

theorem rankingPassYear_rank_overall_perm (G : List AgentStatsRow) :
    List.Perm ((rankingPassYear G).map (fun r => r.rankOverall))
      ((List.range' 1 (rankingPassYear G).length).map some) := by
  have hfold := foldl_aorRankStep_map_perm (fun r => r.rankOverall)
    (fun r k => rfl) (((setOverallRanks G).map (fun r => r.aor)).dedup)
    (setOverallRanks G)
  have hov : (setOverallRanks G).map (fun r => r.rankOverall)
      = (List.range' 1 (sortByVolumeDesc G).length).map some := by
    unfold setOverallRanks
    exact assignRanksFrom_map_getter setRankOverall (fun r => r.rankOverall)
      (fun r k => rfl) 1 _
  have hlen1 : (rankingPassYear G).length = (setOverallRanks G).length := by
    have h := hfold.length_eq
    rw [List.length_map, List.length_map] at h
    exact h
  have hlen2 : (setOverallRanks G).length = (sortByVolumeDesc G).length := by
    unfold setOverallRanks
    exact assignRanksFrom_length setRankOverall 1 _
  rw [hlen1, hlen2, ← hov]
  exact hfold

theorem rankingPassYear_overall_monotone (G : List AgentStatsRow) :
    ∀ r ∈ rankingPassYear G, ∀ s ∈ rankingPassYear G, ∀ i j : Nat,
      r.rankOverall = some i → s.rankOverall = some j → i < j →
      s.totalVolume ≤ r.totalVolume := by
  intro r hr s hs i j hi hj hij
  have hfold := foldl_aorRankStep_map_perm
    (fun r => (r.rankOverall, r.totalVolume)) (fun r k => rfl)
    (((setOverallRanks G).map (fun r => r.aor)).dedup) (setOverallRanks G)
  have hrm : (r.rankOverall, r.totalVolume) ∈
      (setOverallRanks G).map (fun r => (r.rankOverall, r.totalVolume)) :=
    hfold.mem_iff.mp (List.mem_map_of_mem _ hr)
  have hsm : (s.rankOverall, s.totalVolume) ∈
      (setOverallRanks G).map (fun r => (r.rankOverall, r.totalVolume)) :=
    hfold.mem_iff.mp (List.mem_map_of_mem _ hs)
  obtain ⟨r0, hr0, hr0eq⟩ := List.mem_map.mp hrm
  obtain ⟨s0, hs0, hs0eq⟩ := List.mem_map.mp hsm
  have hr0rank : r0.rankOverall = some i := by
    have := congrArg Prod.fst hr0eq
    simpa [hi] using this
  have hs0rank : s0.rankOverall = some j := by
    have := congrArg Prod.fst hs0eq
    simpa [hj] using this
  have hr0vol : r0.totalVolume = r.totalVolume := by
    have := congrArg Prod.snd hr0eq
    simpa using this
  have hs0vol : s0.totalVolume = s.totalVolume := by
    have := congrArg Prod.snd hs0eq
    simpa using this
  have hmono := assignRanksFrom_monotone setRankOverall
    (fun r => r.rankOverall) (fun r k => rfl) (fun r k => rfl)
    (sortByVolumeDesc G) (sortByVolumeDesc_pairwise G) 1 r0 s0 i j
    hr0 hs0 hr0rank hs0rank hij
  rw [hr0vol, hs0vol] at hmono
  exact hmono

theorem rankingPassYear_aor_rank_perm (G : List AgentStatsRow)
    (a : Option String) :
    List.Perm
      (((rankingPassYear G).filter (fun r => r.aor == a)).map
        (fun r => r.rankInAor))
      ((List.range' 1
        ((rankingPassYear G).filter (fun r => r.aor == a)).length).map some) := by
  rw [rankingPassYear_group]
  unfold setAorRanks
  rw [assignRanksFrom_map_getter setRankInAor (fun r => r.rankInAor)
    (fun r k => rfl) 1 _, assignRanksFrom_length]

theorem rankingPassYear_aor_monotone (G : List AgentStatsRow) :
    ∀ a : Option String, ∀ r ∈ rankingPassYear G, ∀ s ∈ rankingPassYear G,
      r.aor = a → s.aor = a → ∀ i j : Nat,
      r.rankInAor = some i → s.rankInAor = some j → i < j →
      s.totalVolume ≤ r.totalVolume := by
  intro a r hr s hs hra hsa i j hi hj hij
  have hrf : r ∈ (rankingPassYear G).filter (fun x => x.aor == a) :=
    List.mem_filter.mpr ⟨hr, beq_iff_eq.mpr hra⟩
  have hsf : s ∈ (rankingPassYear G).filter (fun x => x.aor == a) :=
    List.mem_filter.mpr ⟨hs, beq_iff_eq.mpr hsa⟩
  rw [rankingPassYear_group] at hrf hsf
  unfold setAorRanks at hrf hsf
  exact assignRanksFrom_monotone setRankInAor (fun r => r.rankInAor)
    (fun r k => rfl) (fun r k => rfl) _
    (sortByVolumeDesc_pairwise _) 1 r s i j hrf hsf hi hj hij

/-- C8: after `calculate_agent_stats(year)`, the `rank_overall` values of
that year's `AgentStats` rows form the contiguous sequence 1..N (N the
number of that year's rows) with no gaps, assigned in descending
`total_volume` order (the volume never increases as the rank increases;
ties keep a deterministic order fixed within the run), and within each
association the `rank_in_aor` values form the contiguous sequence 1..M for
that association's M rows under the same ordering. -/
theorem C8_ranking_contiguous_and_monotone (props : List PropertyRow)
    (members : List MemberRow) (stats : List AgentStatsRow) (year : Int) :
    List.Perm
      (((calculateAgentStats props members stats year).stats.filter
          (fun r => r.year == year)).map (fun r => r.rankOverall))
      ((List.range' 1 ((calculateAgentStats props members stats year).stats.filter
          (fun r => r.year == year)).length).map some) ∧
    (∀ r ∈ (calculateAgentStats props members stats year).stats.filter
        (fun r => r.year == year),
     ∀ s ∈ (calculateAgentStats props members stats year).stats.filter
        (fun r => r.year == year),
     ∀ i j : Nat, r.rankOverall = some i → s.rankOverall = some j → i < j →
       s.totalVolume ≤ r.totalVolume) ∧
    (∀ a : Option String,
      List.Perm
        ((((calculateAgentStats props members stats year).stats.filter
            (fun r => r.year == year)).filter (fun r => r.aor == a)).map
          (fun r => r.rankInAor))
        ((List.range' 1
          (((calculateAgentStats props members stats year).stats.filter
            (fun r => r.year == year)).filter (fun r => r.aor == a)).length).map
          some)) ∧
    (∀ a : Option String,
     ∀ r ∈ (calculateAgentStats props members stats year).stats.filter
        (fun r => r.year == year),
     ∀ s ∈ (calculateAgentStats props members stats year).stats.filter
        (fun r => r.year == year),
       r.aor = a → s.aor = a → ∀ i j : Nat,
       r.rankInAor = some i → s.rankInAor = some j → i < j →
       s.totalVolume ≤ r.totalVolume) := by
  rw [calculateAgentStats_year_rows props members stats year]
  exact ⟨rankingPassYear_rank_overall_perm _,
         rankingPassYear_overall_monotone _,
         rankingPassYear_aor_rank_perm _,
         rankingPassYear_aor_monotone _⟩


/-! ### Upsert lemmas for the stats table -/

theorem agentStatsUpdateOrCreate_triple_mono (stats : List AgentStatsRow)
    (k : Int) (y : Int) (a : String) (v : Volumes) (r : AgentStatsRow)
    (hr : r ∈ stats) :
    ∃ q ∈ agentStatsUpdateOrCreate stats k y a v,
      q.memberKey = r.memberKey ∧ q.year = r.year ∧ q.aor = r.aor := by
  unfold agentStatsUpdateOrCreate
  by_cases hany : stats.any (fun x => statsKeyMatches x k y a) = true
  · rw [if_pos hany]
    refine ⟨_, List.mem_map_of_mem _ hr, ?_⟩
    by_cases hm : statsKeyMatches r k y a = true
    · rw [if_pos hm]
      exact ⟨rfl, rfl, rfl⟩
    · rw [if_neg hm]
      exact ⟨rfl, rfl, rfl⟩
  · rw [if_neg hany]
    exact ⟨r, List.mem_append_left _ hr, rfl, rfl, rfl⟩

theorem foldl_upsertStatsStep_triple_mono (members : List MemberRow)
    (year : Int) (bs : List (VolKey × Volumes))
    (acc : List AgentStatsRow × Nat) (r : AgentStatsRow)
    (hr : r ∈ acc.1) :
    ∃ q ∈ (bs.foldl (upsertStatsStep members year) acc).1,
      q.memberKey = r.memberKey ∧ q.year = r.year ∧ q.aor = r.aor := by
  induction bs generalizing acc r with
  | nil => exact ⟨r, hr, rfl, rfl, rfl⟩
  | cons e es ih =>
    rw [List.foldl_cons]
    unfold upsertStatsStep
    by_cases hm : members.any (fun m => m.memberKeyNumeric == e.1.1) = true
    · rw [if_pos hm]
      obtain ⟨q1, hq1, h1, h2, h3⟩ :=
        agentStatsUpdateOrCreate_triple_mono acc.1 e.1.1 year e.1.2 e.2 r hr
      obtain ⟨q2, hq2, g1, g2, g3⟩ := ih
        (agentStatsUpdateOrCreate acc.1 e.1.1 year e.1.2 e.2, acc.2 + 1) q1 hq1
      exact ⟨q2, hq2, g1.trans h1, g2.trans h2, g3.trans h3⟩
    · rw [if_neg hm]
      exact ih acc r hr

theorem rankingPassYear_triple_mem (g : List AgentStatsRow) (r : AgentStatsRow)
    (hr : r ∈ g) :
    ∃ q ∈ rankingPassYear g, q.memberKey = r.memberKey ∧ q.year = r.year ∧
      q.aor = r.aor := by
  have hperm := rankingPassYear_map_perm
    (fun x => (x.memberKey, x.year, x.aor)) (fun x k => rfl) (fun x k => rfl) g
  have hmem : (r.memberKey, r.year, r.aor) ∈
      (rankingPassYear g).map (fun x => (x.memberKey, x.year, x.aor)) :=
    hperm.mem_iff.mpr (List.mem_map_of_mem _ hr)
  obtain ⟨q, hq, hqe⟩ := List.mem_map.mp hmem
  have h1 := congrArg Prod.fst hqe
  have h23 := congrArg Prod.snd hqe
  have h2 := congrArg Prod.fst h23
  have h3 := congrArg Prod.snd h23
  exact ⟨q, hq, h1, h2, h3⟩

theorem calculateAgentStats_no_delete (props : List PropertyRow)
    (members : List MemberRow) (stats : List AgentStatsRow) (year : Int) :
    ∀ r ∈ stats, ∃ q ∈ (calculateAgentStats props members stats year).stats,
      q.memberKey = r.memberKey ∧ q.year = r.year ∧ q.aor = r.aor := by
  intro r hr
  obtain ⟨q1, hq1, e1, e2, e3⟩ := foldl_upsertStatsStep_triple_mono members year
    (agentVolumes props year) (stats, 0) r hr
  unfold calculateAgentStats
  dsimp only
  by_cases hy : q1.year = year
  · have hq1f : q1 ∈ (upsertAgentStats members stats year
        (agentVolumes props year)).1.filter (fun x => x.year == year) :=
      List.mem_filter.mpr ⟨hq1, beq_iff_eq.mpr hy⟩
    obtain ⟨q, hq, f1, f2, f3⟩ := rankingPassYear_triple_mem _ q1 hq1f
    exact ⟨q, List.mem_append_right _ hq, f1.trans e1, f2.trans e2, f3.trans e3⟩
  · have hq1f : q1 ∈ (upsertAgentStats members stats year
        (agentVolumes props year)).1.filter (fun x => x.year != year) :=
      List.mem_filter.mpr ⟨hq1, by simp [bne, beq_eq_false_iff_ne.mpr hy]⟩
    exact ⟨q1, List.mem_append_left _ hq1f, e1, e2, e3⟩

theorem agentStatsUpdateOrCreate_provenance (stats : List AgentStatsRow)
    (k : Int) (y : Int) (a : String) (v : Volumes) (r : AgentStatsRow)
    (hr : r ∈ agentStatsUpdateOrCreate stats k y a v) :
    (∃ r0 ∈ stats, r.memberKey = r0.memberKey ∧ r.year = r0.year ∧
      r.aor = r0.aor) ∨
    (r.memberKey = k ∧ r.year = y ∧ r.aor = some a) := by
  unfold agentStatsUpdateOrCreate at hr
  by_cases hany : stats.any (fun x => statsKeyMatches x k y a) = true
  · rw [if_pos hany] at hr
    obtain ⟨r0, hr0, hre⟩ := List.mem_map.mp hr
    left
    refine ⟨r0, hr0, ?_⟩
    by_cases hm : statsKeyMatches r0 k y a = true
    · rw [if_pos hm] at hre
      rw [← hre]
      exact ⟨rfl, rfl, rfl⟩
    · rw [if_neg hm] at hre
      rw [← hre]
      exact ⟨rfl, rfl, rfl⟩
  · rw [if_neg hany] at hr
    rcases List.mem_append.mp hr with h | h
    · left
      exact ⟨r, h, rfl, rfl, rfl⟩
    · right
      have hr2 := List.mem_singleton.mp h
      rw [hr2]
      exact ⟨rfl, rfl, rfl⟩

theorem foldl_upsertStatsStep_provenance (members : List MemberRow)
    (year : Int) (bs : List (VolKey × Volumes))
    (acc : List AgentStatsRow × Nat) (r : AgentStatsRow)
    (hr : r ∈ (bs.foldl (upsertStatsStep members year) acc).1) :
    (∃ r0 ∈ acc.1, r.memberKey = r0.memberKey ∧ r.year = r0.year ∧
      r.aor = r0.aor) ∨
    (∃ e ∈ bs, members.any (fun m => m.memberKeyNumeric == e.1.1) = true ∧
      r.memberKey = e.1.1 ∧ r.year = year ∧ r.aor = some e.1.2) := by
  induction bs generalizing acc with
  | nil =>
    left
    exact ⟨r, hr, rfl, rfl, rfl⟩
  | cons e es ih =>
    rw [List.foldl_cons] at hr
    unfold upsertStatsStep at hr
    by_cases hm : members.any (fun m => m.memberKeyNumeric == e.1.1) = true
    · rw [if_pos hm] at hr
      rcases ih _ hr with ⟨r0, hr0, h1, h2, h3⟩ | ⟨e2, he2, hm2, h1, h2, h3⟩
      · rcases agentStatsUpdateOrCreate_provenance acc.1 e.1.1 year e.1.2 e.2
            r0 hr0 with ⟨r1, hr1, g1, g2, g3⟩ | ⟨g1, g2, g3⟩
        · left
          exact ⟨r1, hr1, h1.trans g1, h2.trans g2, h3.trans g3⟩
        · right
          exact ⟨e, List.mem_cons_self e es, hm,
            h1.trans g1, h2.trans g2, h3.trans g3⟩
      · right
        exact ⟨e2, List.mem_cons_of_mem e he2, hm2, h1, h2, h3⟩
    · rw [if_neg hm] at hr
      rcases ih acc hr with hl | ⟨e2, he2, rest⟩
      · left
        exact hl
      · right
        exact ⟨e2, List.mem_cons_of_mem e he2, rest⟩

theorem filter_length_map_congr {α : Type} (l : List α) (p : α → Bool)
    (f : α → α) (hf : ∀ a ∈ l, p (f a) = p a) :
    ((l.map f).filter p).length = (l.filter p).length := by
  induction l with
  | nil => rfl
  | cons a l ih =>
    have hfa := hf a (List.mem_cons_self a l)
    have ihr := ih (fun x hx => hf x (List.mem_cons_of_mem a hx))
    by_cases h : p a = true
    · simp only [List.map_cons, List.filter_cons, hfa, h, if_true,
        List.length_cons, ihr]
    · have h' : p a = false := by simpa using h
      simp only [List.map_cons, List.filter_cons, hfa, h', ihr,
        Bool.false_eq_true, if_false]

theorem statsKeyMatches_update_invariant (x : AgentStatsRow) (k2 : Int)
    (y2 : Int) (a2 : String) (v : Volumes) (k : Int) (y : Int) (a : String) :
    statsKeyMatches (if statsKeyMatches x k2 y2 a2 then
      { x with totalVolume := v.listingVolume + v.buyerVolume
               listingVolume := v.listingVolume
               buyerVolume := v.buyerVolume
               transactionCount := v.listingCount + v.buyerCount
               listingCount := v.listingCount
               buyerCount := v.buyerCount
               averagePrice := if v.listingCount + v.buyerCount > 0 then
                 some ((v.listingVolume + v.buyerVolume) /
                   ((v.listingCount + v.buyerCount : Nat) : Rat))
               else none }
      else x) k y a = statsKeyMatches x k y a := by
  by_cases hm : statsKeyMatches x k2 y2 a2 = true
  · rw [if_pos hm]
    rfl
  · rw [if_neg hm]

theorem agentStatsUpdateOrCreate_count_same (stats : List AgentStatsRow)
    (k : Int) (y : Int) (a : String) (v : Volumes)
    (h : (stats.filter (fun r => statsKeyMatches r k y a)).length ≤ 1) :
    ((agentStatsUpdateOrCreate stats k y a v).filter
      (fun r => statsKeyMatches r k y a)).length = 1 := by
  unfold agentStatsUpdateOrCreate
  by_cases hany : stats.any (fun x => statsKeyMatches x k y a) = true
  · rw [if_pos hany]
    rw [filter_length_map_congr]
    · have h1 := one_le_filter_length_of_any stats
        (fun x => statsKeyMatches x k y a) hany
      omega
    · intro x _
      exact statsKeyMatches_update_invariant x k y a v k y a
  · rw [if_neg hany]
    have hany' : stats.any (fun x => statsKeyMatches x k y a) = false := by
      simpa using hany
    rw [List.filter_append, filter_nil_of_any_false _ _ hany']
    simp [statsKeyMatches]

theorem agentStatsUpdateOrCreate_count_other (stats : List AgentStatsRow)
    (k2 : Int) (a2 : String) (k : Int) (y : Int) (a : String) (v : Volumes)
    (hne : ¬(k2 = k ∧ a2 = a)) :
    ((agentStatsUpdateOrCreate stats k2 y a2 v).filter
      (fun r => statsKeyMatches r k y a)).length
      = (stats.filter (fun r => statsKeyMatches r k y a)).length := by
  unfold agentStatsUpdateOrCreate
  by_cases hany : stats.any (fun x => statsKeyMatches x k2 y a2) = true
  · rw [if_pos hany]
    rw [filter_length_map_congr]
    intro x _
    exact statsKeyMatches_update_invariant x k2 y a2 v k y a
  · rw [if_neg hany]
    rw [List.filter_append]
    have hnew : statsKeyMatches
        { memberKey := k2
          year := y
          aor := some a2
          totalVolume := v.listingVolume + v.buyerVolume
          listingVolume := v.listingVolume
          buyerVolume := v.buyerVolume
          transactionCount := v.listingCount + v.buyerCount
          listingCount := v.listingCount
          buyerCount := v.buyerCount
          rankOverall := none
          rankInAor := none
          averagePrice := if v.listingCount + v.buyerCount > 0 then
            some ((v.listingVolume + v.buyerVolume) /
              ((v.listingCount + v.buyerCount : Nat) : Rat))
          else none } k y a = false := by
      unfold statsKeyMatches
      dsimp only
      by_cases hk : k2 = k
      · have ha2 : a2 ≠ a := fun hc => hne ⟨hk, hc⟩
        have h2f : ((some a2 : Option String) == some a) = false :=
          beq_eq_false_iff_ne.mpr (by simpa using ha2)
        rw [h2f, Bool.and_false]
      · have h1f : ((k2 : Int) == k) = false := beq_eq_false_iff_ne.mpr hk
        rw [h1f, Bool.false_and, Bool.false_and]
    rw [List.filter_cons, hnew]
    simp only [Bool.false_eq_true, if_false, List.filter_nil, List.append_nil]

theorem upsertStatsStep_count_other (members : List MemberRow) (year : Int)
    (acc : List AgentStatsRow × Nat) (e : VolKey × Volumes) (k : Int)
    (a : String) (hne : e.1 ≠ (k, a)) :
    ((upsertStatsStep members year acc e).1.filter
      (fun r => statsKeyMatches r k year a)).length
      = (acc.1.filter (fun r => statsKeyMatches r k year a)).length := by
  unfold upsertStatsStep
  by_cases hm : members.any (fun m => m.memberKeyNumeric == e.1.1) = true
  · rw [if_pos hm]
    refine agentStatsUpdateOrCreate_count_other acc.1 e.1.1 e.1.2 k year a e.2 ?_
    intro hc
    exact hne (Prod.ext hc.1 hc.2)
  · rw [if_neg hm]

theorem foldl_upsertStatsStep_count_preserved (members : List MemberRow)
    (year : Int) (bs : List (VolKey × Volumes)) (acc : List AgentStatsRow × Nat)
    (k : Int) (a : String) (hbs : ∀ e ∈ bs, e.1 ≠ (k, a)) :
    ((bs.foldl (upsertStatsStep members year) acc).1.filter
      (fun r => statsKeyMatches r k year a)).length
      = (acc.1.filter (fun r => statsKeyMatches r k year a)).length := by
  induction bs generalizing acc with
  | nil => rfl
  | cons e es ih =>
    rw [List.foldl_cons]
    rw [ih (upsertStatsStep members year acc e)
      (fun x hx => hbs x (List.mem_cons_of_mem e hx))]
    exact upsertStatsStep_count_other members year acc e k a
      (hbs e (List.mem_cons_self e es))

theorem foldl_upsertStatsStep_count_create (members : List MemberRow)
    (year : Int) (bs : List (VolKey × Volumes)) (acc : List AgentStatsRow × Nat)
    (k : Int) (a : String)
    (hmem : (k, a) ∈ bs.map (fun e => e.1))
    (hnodup : (bs.map (fun e => e.1)).Nodup)
    (hmember : members.any (fun m => m.memberKeyNumeric == k) = true)
    (hzero : (acc.1.filter (fun r => statsKeyMatches r k year a)).length = 0) :
    ((bs.foldl (upsertStatsStep members year) acc).1.filter
      (fun r => statsKeyMatches r k year a)).length = 1 := by
  induction bs generalizing acc with
  | nil => cases hmem
  | cons e es ih =>
    rw [List.map_cons] at hmem hnodup
    rcases List.nodup_cons.mp hnodup with ⟨hn1, hn2⟩
    rw [List.foldl_cons]
    rcases List.mem_cons.mp hmem with heq | hmem2
    · have hes : ∀ x ∈ es, x.1 ≠ (k, a) := by
        intro x hx hc
        exact hn1 (heq ▸ hc ▸ List.mem_map_of_mem (fun e => e.1) hx)
      rw [foldl_upsertStatsStep_count_preserved members year es _ k a hes]
      unfold upsertStatsStep
      have he1 : e.1.1 = k := by rw [← heq]
      have he2 : e.1.2 = a := by rw [← heq]
      rw [he1, if_pos hmember, he2]
      exact agentStatsUpdateOrCreate_count_same acc.1 k year a e.2
        (le_of_eq hzero |>.trans (by omega))
    · have hne : e.1 ≠ (k, a) := by
        intro hc
        exact hn1 (hc ▸ hmem2)
      refine ih (upsertStatsStep members year acc e) hmem2 hn2 ?_
      rw [upsertStatsStep_count_other members year acc e k a hne]
      exact hzero

theorem bumpBucket_keys_nodup (m : List (VolKey × Volumes)) (key : VolKey)
    (f : Volumes → Volumes) (h : (m.map (fun e => e.1)).Nodup) :
    ((bumpBucket m key f).map (fun e => e.1)).Nodup := by
  unfold bumpBucket
  by_cases hany : m.any (fun e => e.1 == key) = true
  · rw [if_pos hany]
    have hmap : (m.map (fun e => if e.1 == key then (e.1, f e.2) else e)).map
        (fun e => e.1) = m.map (fun e => e.1) := by
      rw [List.map_map]
      refine List.map_congr_left ?_
      intro e _
      by_cases he : e.1 = key
      · simp [he]
      · simp [he]
    rw [hmap]
    exact h
  · rw [if_neg hany]
    rw [List.map_append]
    refine h.append (List.nodup_singleton _) ?_
    intro x hx hx2
    have hxk : x = key := by simpa using hx2
    subst hxk
    obtain ⟨e, he, hek⟩ := List.mem_map.mp hx
    exact hany (List.any_eq_true.mpr ⟨e, he, by simp [hek]⟩)

theorem accumulateProperty_keys_nodup (m : List (VolKey × Volumes))
    (p : PropertyRow) (h : (m.map (fun e => e.1)).Nodup) :
    ((accumulateProperty m p).map (fun e => e.1)).Nodup := by
  unfold accumulateProperty
  dsimp only
  repeat' split
  all_goals first
    | exact h
    | exact bumpBucket_keys_nodup _ _ _ h
    | exact bumpBucket_keys_nodup _ _ _ (bumpBucket_keys_nodup _ _ _ h)

theorem agentVolumes_keys_nodup (props : List PropertyRow) (year : Int) :
    ((agentVolumes props year).map (fun e => e.1)).Nodup := by
  unfold agentVolumes
  have hgen : ∀ (l : List PropertyRow) (m : List (VolKey × Volumes)),
      (m.map (fun e => e.1)).Nodup →
      ((l.foldl accumulateProperty m).map (fun e => e.1)).Nodup := by
    intro l
    induction l with
    | nil => intro m hm; exact hm
    | cons p ps ih =>
      intro m hm
      rw [List.foldl_cons]
      exact ih _ (accumulateProperty_keys_nodup m p hm)
  exact hgen _ [] (by simp)

theorem rankingPassYear_filter_key_length (g : List AgentStatsRow) (k : Int)
    (a : String) :
    ((rankingPassYear g).filter
        (fun r => r.memberKey == k && r.aor == some a)).length
      = (g.filter (fun r => r.memberKey == k && r.aor == some a)).length := by
  have hperm := rankingPassYear_map_perm (fun r => (r.memberKey, r.aor))
    (fun r j => rfl) (fun r j => rfl) g
  rw [← List.countP_eq_length_filter, ← List.countP_eq_length_filter]
  have h1 : (rankingPassYear g).countP
        (fun r => r.memberKey == k && r.aor == some a)
      = ((rankingPassYear g).map (fun r => (r.memberKey, r.aor))).countP
        (fun q => q.1 == k && q.2 == some a) := by
    rw [List.countP_map]
    rfl
  have h2 : g.countP (fun r => r.memberKey == k && r.aor == some a)
      = (g.map (fun r => (r.memberKey, r.aor))).countP
        (fun q => q.1 == k && q.2 == some a) := by
    rw [List.countP_map]
    rfl
  rw [h1, h2, hperm.countP_eq]

theorem calculateAgentStats_bucket_count (props : List PropertyRow)
    (members : List MemberRow) (stats : List AgentStatsRow) (year : Int)
    (hclean : ∀ r ∈ stats, r.year ≠ year)
    (e : VolKey × Volumes) (he : e ∈ agentVolumes props year)
    (hm : members.any (fun m => m.memberKeyNumeric == e.1.1) = true) :
    (((calculateAgentStats props members stats year).stats.filter
        (fun r => r.year == year)).filter
      (fun r => r.memberKey == e.1.1 && r.aor == some e.1.2)).length = 1 := by
  rw [calculateAgentStats_year_rows, rankingPassYear_filter_key_length,
    List.filter_filter]
  have hcongr : (upsertAgentStats members stats year
        (agentVolumes props year)).1.filter
        (fun r => (r.memberKey == e.1.1 && r.aor == some e.1.2) &&
          (r.year == year))
      = (upsertAgentStats members stats year (agentVolumes props year)).1.filter
        (fun r => statsKeyMatches r e.1.1 year e.1.2) := by
    refine List.filter_congr ?_
    intro r _
    unfold statsKeyMatches
    cases r.memberKey == e.1.1 <;> cases r.year == year <;>
      cases r.aor == some e.1.2 <;> rfl
  rw [hcongr]
  refine foldl_upsertStatsStep_count_create members year
    (agentVolumes props year) (stats, 0) e.1.1 e.1.2
    (List.mem_map_of_mem (fun x => x.1) he)
    (agentVolumes_keys_nodup props year) hm ?_
  have hz : (stats.filter
      (fun r => statsKeyMatches r e.1.1 year e.1.2)) = [] := by
    refine List.filter_eq_nil_iff.mpr ?_
    intro r hr hs
    simp only [statsKeyMatches, Bool.and_eq_true, beq_iff_eq] at hs
    exact hclean r hr hs.1.2
  rw [hz]
  rfl

theorem calculateAgentStats_year_rows_provenance (props : List PropertyRow)
    (members : List MemberRow) (stats : List AgentStatsRow) (year : Int)
    (hclean : ∀ r ∈ stats, r.year ≠ year) :
    ∀ r ∈ (calculateAgentStats props members stats year).stats.filter
        (fun x => x.year == year),
      ∃ e ∈ agentVolumes props year,
        members.any (fun m => m.memberKeyNumeric == e.1.1) = true ∧
        r.memberKey = e.1.1 ∧ r.year = year ∧ r.aor = some e.1.2 := by
  intro r hr
  rw [calculateAgentStats_year_rows] at hr
  have hperm := rankingPassYear_map_perm
    (fun x => (x.memberKey, x.year, x.aor)) (fun x k => rfl) (fun x k => rfl)
    ((upsertAgentStats members stats year (agentVolumes props year)).1.filter
      (fun x => x.year == year))
  have hmem : (r.memberKey, r.year, r.aor) ∈
      ((upsertAgentStats members stats year (agentVolumes props year)).1.filter
        (fun x => x.year == year)).map (fun x => (x.memberKey, x.year, x.aor)) :=
    hperm.mem_iff.mp (List.mem_map_of_mem _ hr)
  obtain ⟨q, hq, hqe⟩ := List.mem_map.mp hmem
  have h1 : q.memberKey = r.memberKey := congrArg Prod.fst hqe
  have h23 := congrArg Prod.snd hqe
  have h2 : q.year = r.year := congrArg Prod.fst h23
  have h3 : q.aor = r.aor := congrArg Prod.snd h23
  have hq1 : q ∈ (upsertAgentStats members stats year
      (agentVolumes props year)).1 := (List.mem_filter.mp hq).1
  have hqy : q.year = year := beq_iff_eq.mp (List.mem_filter.mp hq).2
  rcases foldl_upsertStatsStep_provenance members year (agentVolumes props year)
      (stats, 0) q hq1 with ⟨r0, hr0, g1, g2, g3⟩ | ⟨e, he, hme, g1, g2, g3⟩
  · exact absurd (g2.symm.trans hqy) (hclean r0 hr0)
  · exact ⟨e, he, hme, h1.symm.trans g1, h2.symm.trans g2, h3.symm.trans g3⟩

/-- C9 as amended: `calculate_agent_stats(year)` upserts exactly one
`AgentStats` row per (agent, year, association) bucket derived from the
stored qualifying listings, skipping buckets whose agent has no `Member`
row, and never deletes anything: every pre-existing row keeps a row with
its (member, year, aor) triple.  Consequently, when the year's stats start
out empty, the year's rows afterwards are exactly one per derived bucket
with a known member; but an agent with no qualifying transactions, whose
row was written by an earlier run, retains that stale row (see the
counterexample). -/
theorem C9_upsert_without_delete_amended (props : List PropertyRow)
    (members : List MemberRow) (stats : List AgentStatsRow) (year : Int) :
    (∀ r ∈ stats, ∃ q ∈ (calculateAgentStats props members stats year).stats,
      q.memberKey = r.memberKey ∧ q.year = r.year ∧ q.aor = r.aor) ∧
    ((∀ r ∈ stats, r.year ≠ year) →
      (∀ e ∈ agentVolumes props year,
        members.any (fun m => m.memberKeyNumeric == e.1.1) = true →
        (((calculateAgentStats props members stats year).stats.filter
            (fun r => r.year == year)).filter
          (fun r => r.memberKey == e.1.1 && r.aor == some e.1.2)).length = 1) ∧
      (∀ r ∈ (calculateAgentStats props members stats year).stats.filter
          (fun x => x.year == year),
        ∃ e ∈ agentVolumes props year,
          members.any (fun m => m.memberKeyNumeric == e.1.1) = true ∧
          r.memberKey = e.1.1 ∧ r.year = year ∧ r.aor = some e.1.2)) := by
  refine ⟨calculateAgentStats_no_delete props members stats year, ?_⟩
  intro hclean
  exact ⟨fun e he hm =>
      calculateAgentStats_bucket_count props members stats year hclean e he hm,
    calculateAgentStats_year_rows_provenance props members stats year hclean⟩

unseal Rat.add Rat.mul Rat.inv in
/-- Witness for C8 at the two-listing scenario: both expected ranked rows
are present and the theorem's overall-rank monotonicity applies to them
(rank 1 at volume 200 versus rank 2 at volume 100). -/
theorem C8_ranking_contiguous_and_monotone_witness :
    c8RowTop ∈ c8YearRows ∧ c8RowSecond ∈ c8YearRows ∧
    c8RowSecond.totalVolume ≤ c8RowTop.totalVolume :=
  ⟨by decide, by decide,
   (C8_ranking_contiguous_and_monotone [c8Prop1, c8Prop2]
      [{ memberKeyNumeric := 1, modificationTimestamp := none, payload := "m1" },
       { memberKeyNumeric := 2, modificationTimestamp := none, payload := "m2" }]
      [] 2024).2.1 c8RowTop (by decide) c8RowSecond (by decide) 1 2
      (by decide) (by decide) (by decide)⟩

unseal Rat.add Rat.mul Rat.inv in
/-- Witness for C9 as amended at the two-listing scenario starting from an
empty stats table: agent 1's bucket yields exactly one 2024 row. -/
theorem C9_upsert_without_delete_amended_witness :
    (((calculateAgentStats [c8Prop1, c8Prop2]
        [{ memberKeyNumeric := 1, modificationTimestamp := none, payload := "m1" },
         { memberKeyNumeric := 2, modificationTimestamp := none, payload := "m2" }]
        [] 2024).stats.filter (fun r => r.year == 2024)).filter
      (fun r => r.memberKey == 1 && r.aor == some "X")).length = 1 :=
  ((C9_upsert_without_delete_amended [c8Prop1, c8Prop2]
      [{ memberKeyNumeric := 1, modificationTimestamp := none, payload := "m1" },
       { memberKeyNumeric := 2, modificationTimestamp := none, payload := "m2" }]
      [] 2024).2 (by intro r hr; cases hr)).1
    ((1, "X"), { listingVolume := 200
                 buyerVolume := 0
                 listingCount := 1
                 buyerCount := 0 })
    (by decide) (by decide)
